import Mathlib

/-!
Verification of the cherow ECMAScript parser core (src/parser.ts).

The development shallowly embeds the lexer and parser helpers that the
checked properties concern.  JavaScript strings are modelled as lists of
UTF-16 code units (natural numbers); the mutable Parser object becomes an
explicit state record threaded through each function; a thrown parse error
becomes the error branch of an Except value.  Out-of-range charCodeAt reads
yield none, mirroring NaN, which compares unequal to and not-less-than every
character code; the comparison helpers below encode exactly that.

Supporting modules of the repository (chars.ts, masks.ts, token.ts,
errors.ts, common.ts, unicode.ts) are not part of the provided sources;
their small closed enumerations and helpers are modelled from the
specification where needed, each marked in its doc comment.
-/

namespace Cherow

/- Modelled from the spec: character code constants (chars.ts is not in the
provided sources).  These are the standard UTF-16 code units the scanner
compares against; the names follow the source. -/
namespace Chars

def Tab : Nat := 0x09
def LineFeed : Nat := 0x0A
def VerticalTab : Nat := 0x0B
def FormFeed : Nat := 0x0C
def CarriageReturn : Nat := 0x0D
def Space : Nat := 0x20
def Exclamation : Nat := 0x21
def DoubleQuote : Nat := 0x22
def Hash : Nat := 0x23
def Dollar : Nat := 0x24
def Percent : Nat := 0x25
def Ampersand : Nat := 0x26
def SingleQuote : Nat := 0x27
def LeftParen : Nat := 0x28
def RightParen : Nat := 0x29
def Asterisk : Nat := 0x2A
def Plus : Nat := 0x2B
def Comma : Nat := 0x2C
def Hyphen : Nat := 0x2D
def Period : Nat := 0x2E
def Slash : Nat := 0x2F
def Zero : Nat := 0x30
def One : Nat := 0x31
def Two : Nat := 0x32
def Three : Nat := 0x33
def Four : Nat := 0x34
def Five : Nat := 0x35
def Six : Nat := 0x36
def Seven : Nat := 0x37
def Eight : Nat := 0x38
def Nine : Nat := 0x39
def Colon : Nat := 0x3A
def Semicolon : Nat := 0x3B
def LessThan : Nat := 0x3C
def EqualSign : Nat := 0x3D
def GreaterThan : Nat := 0x3E
def QuestionMark : Nat := 0x3F
def UpperA : Nat := 0x41
def UpperB : Nat := 0x42
def UpperE : Nat := 0x45
def UpperO : Nat := 0x4F
def UpperU : Nat := 0x55
def UpperX : Nat := 0x58
def UpperZ : Nat := 0x5A
def LeftBracket : Nat := 0x5B
def Backslash : Nat := 0x5C
def RightBracket : Nat := 0x5D
def Caret : Nat := 0x5E
def Underscore : Nat := 0x5F
def Backtick : Nat := 0x60
def LowerA : Nat := 0x61
def LowerB : Nat := 0x62
def LowerE : Nat := 0x65
def LowerF : Nat := 0x66
def LowerG : Nat := 0x67
def LowerI : Nat := 0x69
def LowerM : Nat := 0x6D
def LowerN : Nat := 0x6E
def LowerO : Nat := 0x6F
def LowerR : Nat := 0x72
def LowerS : Nat := 0x73
def LowerT : Nat := 0x74
def LowerU : Nat := 0x75
def LowerV : Nat := 0x76
def LowerX : Nat := 0x78
def LowerY : Nat := 0x79
def LowerZ : Nat := 0x7A
def LeftBrace : Nat := 0x7B
def VerticalBar : Nat := 0x7C
def RightBrace : Nat := 0x7D
def Tilde : Nat := 0x7E
def NonBreakingSpace : Nat := 0xA0
def Ogham : Nat := 0x1680
def EnQuad : Nat := 0x2000
def EmQuad : Nat := 0x2001
def EnSpace : Nat := 0x2002
def EmSpace : Nat := 0x2003
def ThreePerEmSpace : Nat := 0x2004
def FourPerEmSpace : Nat := 0x2005
def SixPerEmSpace : Nat := 0x2006
def FigureSpace : Nat := 0x2007
def PunctuationSpace : Nat := 0x2008
def ThinSpace : Nat := 0x2009
def HairSpace : Nat := 0x200A
def LineSeparator : Nat := 0x2028
def ParagraphSeparator : Nat := 0x2029
def NarrowNoBreakSpace : Nat := 0x202F
def MathematicalSpace : Nat := 0x205F
def IdeographicSpace : Nat := 0x3000
def ZeroWidthNoBreakSpace : Nat := 0xFEFF
def LastUnicodeChar : Nat := 0x10FFFF

end Chars

/-- Modelled from the spec: the fixed enumeration of error kinds
(errors.ts is not in the provided sources).  Only the members referenced by
the embedded functions are listed. -/
inductive Errors where
  | Unexpected
  | UnexpectedToken
  | UnterminatedString
  | UnterminatedComment
  | UnterminatedTemplate
  | UnterminatedRegExp
  | DuplicateRegExpFlag
  | UnexpectedTokenRegExpFlag
  | StrictOctalEscape
  | StrictOctalLiteral
  | InvalidEightAndNine
  | InvalidHexEscapeSequence
  | InvalidUnicodeEscapeSequence
  | UnicodeOutOfRange
  | InvalidBinaryDigit
  | ExpectedHexDigits
  | DuplicateIdentifier
  | InvalidEscapedReservedWord
  | InvalidLHSInForIn
  | InvalidLHSInAssignment
  deriving DecidableEq, Repr

/-- Modelled from the spec: token kinds are numbers carrying classification
bit-flags (token.ts is not in the provided sources).  Kinds are pairwise
distinct; the BindingPattern mask bit is carried by exactly the kinds after
which the word let starts a lexical declaration: an identifier, a left
brace, or a left bracket. -/
abbrev Token := Nat

namespace Token

/-- Modelled from the spec: classification mask bit for binding-pattern
starts. -/
def BindingPattern : Nat := 1024

def EndOfSource : Token := 0
def Identifier : Token := 1 + BindingPattern
def NumericLiteral : Token := 2
def BigIntLiteral : Token := 3
def StringLiteral : Token := 4
def RegularExpression : Token := 5
def FunctionKeyword : Token := 6
def Divide : Token := 10
def DivideAssign : Token := 11
def LessThan : Token := 12
def LessThanOrEqual : Token := 13
def ShiftLeft : Token := 14
def ShiftLeftAssign : Token := 15
def JSXClose : Token := 16
def Subtract : Token := 17
def SubtractAssign : Token := 18
def Decrement : Token := 19
def LeftBrace : Token := 20 + BindingPattern
def RightBrace : Token := 21
def Complement : Token := 22
def QuestionMark : Token := 23
def LeftBracket : Token := 24 + BindingPattern
def RightBracket : Token := 25
def Comma : Token := 26
def Colon : Token := 27
def Semicolon : Token := 28
def LeftParen : Token := 29
def RightParen : Token := 30
def LogicalAnd : Token := 31
def BitwiseAnd : Token := 32
def BitwiseAndAssign : Token := 33
def Modulo : Token := 34
def ModuloAssign : Token := 35
def Negate : Token := 36
def LooseNotEqual : Token := 37
def StrictNotEqual : Token := 38
def BitwiseXor : Token := 39
def BitwiseXorAssign : Token := 40
def Multiply : Token := 41
def MultiplyAssign : Token := 42
def Exponentiate : Token := 43
def ExponentiateAssign : Token := 44
def Add : Token := 45
def Increment : Token := 46
def AddAssign : Token := 47
def Assign : Token := 48
def LooseEqual : Token := 49
def StrictEqual : Token := 50
def Arrow : Token := 51
def GreaterThan : Token := 52
def GreaterThanOrEqual : Token := 53
def ShiftRight : Token := 54
def ShiftRightAssign : Token := 55
def LogicalShiftRight : Token := 56
def LogicalShiftRightAssign : Token := 57
def LogicalOr : Token := 58
def BitwiseOr : Token := 59
def BitwiseOrAssign : Token := 60
def Period : Token := 61
def Ellipsis : Token := 62

end Token

/-- Modelled from the spec: hasMask from common.ts tests that every bit of
the second argument is present in the first. -/
def hasMask (mask flags : Nat) : Bool := mask &&& flags == flags

/-- Modelled from the spec: tokenDesc renders a token kind for error
messages (token.ts is not in the provided sources); represented here by the
token code itself. -/
def tokenDesc (t : Token) : List Nat := [t]

/-- Mutable parser flags.  The source keeps these in one bitmask
(masks.ts); the embedding uses one Boolean field per bit used by the
embedded functions.  Option bits are set once at construction. -/
structure Flags where
  lineTerminator : Bool
  optionsNext : Bool
  optionsJSX : Bool
  optionsRanges : Bool
  optionsLoc : Bool
  optionsRaw : Bool
  optionsOnComment : Bool
  optionsV8 : Bool
  deriving DecidableEq, Repr

/-- Context bits propagated by value on every call (masks.ts); one Boolean
field per bit used by the embedded functions. -/
structure Context where
  strict : Bool
  module : Bool
  jsxChild : Bool
  forStatement : Bool
  deriving DecidableEq, Repr

/-- Cooked token values.  The source stores arbitrary JavaScript values in
tokenValue; the embedding enumerates the shapes the embedded scanners
produce.  IEEE-754 parseFloat and host RegExp construction are host
functionality (not repository code): a float is represented abstractly by
the exact slice it was parsed from, and a constructed RegExp by its pattern
and flags. -/
inductive JSVal where
  | undef
  | num (n : Int)
  | floatOf (slice : List Nat)
  | str (units : List Nat)
  | regex (pattern : List Nat) (flags : List Nat)
  deriving DecidableEq, Repr

/-- Modelled from the spec: IEEE-754 parseFloat applied to a raw slice,
kept abstract (host functionality); only the identity of the argument slice
is ever used by the theorems. -/
def parseFloat (slice : List Nat) : JSVal := JSVal.floatOf slice

/-- Modelled from the spec: tryCreate asks the host to construct a RegExp
and yields null on failure; kept abstract. -/
def tryCreate (pattern flags : List Nat) : JSVal := JSVal.regex pattern flags

/-- Collected comment (kind, text, start, end), as pushed by
collectComment. -/
structure CComment where
  kind : String
  text : List Nat
  startPos : Nat
  endPos : Nat
  deriving DecidableEq, Repr

/-- Lexer/parser state: the mutable fields of the Parser class that the
embedded functions read or write.  The label set and the scope chain are
not touched by any embedded function and are modelled separately. -/
@[ext]
structure ParserState where
  source : List Nat
  index : Nat
  column : Int
  line : Nat
  flags : Flags
  tokenValue : JSVal
  token : Token
  startPos : Nat
  startColumn : Int
  startLine : Nat
  endPos : Nat
  endColumn : Int
  endLine : Nat
  tokenRaw : List Nat
  tokenRegExp : Option (List Nat × List Nat)
  comments : List CComment
  deriving DecidableEq, Repr

/-- Thrown parse error: kind, location captured by trackErrorLocation, and
message parameters. -/
structure PError where
  error : Errors
  index : Nat
  line : Nat
  column : Int
  params : List (List Nat)
  deriving DecidableEq, Repr

/-- Failure of an embedded computation: either a thrown parse error, or
entry into a part of the scanner (template and identifier sub-scanners,
whose keyword and Unicode tables live outside the provided sources) that
this development does not model.  No checked claim depends on an
unmodelled branch. -/
inductive ScanFail where
  | thrown (e : PError)
  | unmodelled (what : String)
  | fuelOut
  deriving DecidableEq, Repr

/-- Shorthand for a state computation that may throw. -/
abbrev ScanResult (α : Type) := Except ScanFail α

/-- Builds the thrown error with the location of trackErrorLocation. -/
def throwAt (s : ParserState) (e : Errors) (params : List (List Nat)) :
    ScanResult α :=
  Except.error (ScanFail.thrown ⟨e, s.index, s.line, s.column, params⟩)

/-- charCodeAt: none models the NaN read past the end of the source. -/
def charCodeAt (src : List Nat) (i : Nat) : Option Nat := src.get? i

/-- Equality test against a possibly-NaN character read. -/
def ceq (a : Option Nat) (b : Nat) : Bool := a == some b

/-- Less-than against a possibly-NaN read; NaN comparisons are false. -/
def clt (a : Option Nat) (b : Nat) : Bool :=
  match a with
  | some v => v < b
  | none => false

/-- Greater-or-equal against a possibly-NaN read; NaN comparisons are
false. -/
def cge (a : Option Nat) (b : Nat) : Bool :=
  match a with
  | some v => b ≤ v
  | none => false

/-- Less-or-equal against a possibly-NaN read; NaN comparisons are
false. -/
def cle (a : Option Nat) (b : Nat) : Bool :=
  match a with
  | some v => v ≤ b
  | none => false

/-- Modelled from the spec: isDigit from common.ts. -/
def isDigit (a : Option Nat) : Bool := cge a Chars.Zero && cle a Chars.Nine

/-- Modelled from the spec: toHex from common.ts, yielding -1 on a
non-hex-digit (and on the NaN read). -/
def toHex (a : Option Nat) : Int :=
  match a with
  | none => -1
  | some c =>
      if Chars.Zero ≤ c ∧ c ≤ Chars.Nine then (c : Int) - Chars.Zero
      else if Chars.LowerA ≤ c ∧ c ≤ 0x66 then (c : Int) - Chars.LowerA + 10
      else if Chars.UpperA ≤ c ∧ c ≤ 0x46 then (c : Int) - Chars.UpperA + 10
      else -1

/-- Modelled from the spec: the Unicode ID_Start class (unicode.ts is not
in the provided sources), restricted to the ASCII range; code points above
0x7F are outside the fragment the theorems quantify over. -/
def isIdentifierStart (c : Nat) : Bool :=
  c == Chars.Dollar || c == Chars.Underscore ||
  (Chars.UpperA ≤ c && c ≤ Chars.UpperZ) ||
  (Chars.LowerA ≤ c && c ≤ Chars.LowerZ)

/-- Modelled from the spec: the Unicode ID_Continue class (unicode.ts is
not in the provided sources), restricted to the ASCII range; code points
above 0x7F are outside the fragment the theorems quantify over. -/
def isIdentifierPart (c : Nat) : Bool :=
  isIdentifierStart c || (Chars.Zero ≤ c && c ≤ Chars.Nine)

/-- Modelled from the spec: isValidIdentifierStart (unicode.ts), same ASCII
fragment as isIdentifierStart. -/
def isValidIdentifierStart (c : Nat) : Bool := isIdentifierStart c

/-- Modelled from the spec: fromCodePoint from common.ts, encoding one code
point as one UTF-16 unit (via the ToUint16 wrap of fromCharCode) or as a
surrogate pair. -/
def fromCodePoint (code : Int) : List Nat :=
  if code ≤ 0xFFFF then [(code.emod 0x10000).toNat]
  else
    let c := code.toNat
    [0xD800 + (c - 0x10000) / 0x400, 0xDC00 + (c - 0x10000) % 0x400]

namespace ParserState

/-- hasNext. -/
def hasNext (s : ParserState) : Bool := s.index < s.source.length

/-- nextChar: reads the code unit under the cursor. -/
def nextChar (s : ParserState) : Option Nat := charCodeAt s.source s.index

/-- advance: one position, one column. -/
def advance (s : ParserState) : ParserState :=
  { s with index := s.index + 1, column := s.column + 1 }

/-- advanceTwice. -/
def advanceTwice (s : ParserState) : ParserState :=
  { s with index := s.index + 2, column := s.column + 2 }

/-- advanceNewline: sets the LineTerminator flag, advances to the next
line, resets the column. -/
def advanceNewline (s : ParserState) : ParserState :=
  { s with flags := { s.flags with lineTerminator := true },
           index := s.index + 1, column := 0, line := s.line + 1 }

/-- consume: advance exactly when the unit under the cursor matches. -/
def consume (s : ParserState) (code : Nat) : Bool × ParserState :=
  if ceq s.nextChar code then (true, s.advance) else (false, s)

end ParserState

/-- JavaScript slice on code units: the half-open range from a to b,
clamped to the source. -/
def sliceUnits (src : List Nat) (a b : Nat) : List Nat :=
  (src.take b).drop a

/-- JavaScript substring on code units: like slice but swapping a reversed
range. -/
def substringU (src : List Nat) (a b : Nat) : List Nat :=
  if a ≤ b then sliceUnits src a b else sliceUnits src b a

/-- Greater-than against a possibly-NaN read; NaN comparisons are false. -/
def cgt (a : Option Nat) (b : Nat) : Bool :=
  match a with
  | some v => b < v
  | none => false

/-- isIdentifierPart lifted to a possibly-NaN read. -/
def isIdPartO (a : Option Nat) : Bool :=
  match a with
  | some c => isIdentifierPart c
  | none => false

/-- collectComment: both the callback sink and the array sink record the
comment in order; modelled as appending to a list. -/
def collectComment (s : ParserState) (kind : String) (text : List Nat)
    (a b : Nat) : ParserState :=
  { s with comments := s.comments ++ [⟨kind, text, a, b⟩] }

/- Every scanner loop below recurses on an explicit fuel argument.  The
wrappers pass source.length + 1 - index, which the loops, all of which
advance the cursor on every iteration, cannot exhaust; the fuel-zero
branches are unreachable from the wrappers. -/

/-- Loop of skipShebangComment. -/
def skipShebangLoop : Nat → ParserState → ParserState
  | 0, s => s
  | fuel + 1, s =>
    if s.hasNext then
      if ceq s.nextChar Chars.LineFeed || ceq s.nextChar Chars.CarriageReturn ||
         ceq s.nextChar Chars.LineSeparator || ceq s.nextChar Chars.ParagraphSeparator then
        let s1 := s.advanceNewline
        if s1.hasNext && ceq s1.nextChar Chars.LineFeed then
          { s1 with index := s1.index + 1 }
        else s1
      else skipShebangLoop fuel s.advance
    else s

/-- skipShebangComment: consumes to just past the end of the shebang line;
nothing is collected. -/
def skipShebangComment (s : ParserState) : ParserState :=
  skipShebangLoop (s.source.length + 1 - s.index) s

/-- Loop of skipSingleLineComment. -/
def skipSingleLineLoop : Nat → ParserState → ParserState
  | 0, s => s
  | fuel + 1, s =>
    if s.hasNext then
      if ceq s.nextChar Chars.LineFeed || ceq s.nextChar Chars.CarriageReturn ||
         ceq s.nextChar Chars.LineSeparator || ceq s.nextChar Chars.ParagraphSeparator then
        let s1 := s.advanceNewline
        if s1.hasNext && ceq s1.nextChar Chars.LineFeed then
          { s1 with index := s1.index + 1 }
        else s1
      else skipSingleLineLoop fuel s.advance
    else s

/-- skipSingleLineComment: the offset parameter is kept from the source,
where it is unused in the body. -/
def skipSingleLineComment (_offset : Nat) (s : ParserState) : ParserState :=
  let start := s.index
  let s1 := skipSingleLineLoop (s.source.length + 1 - s.index) s
  if s1.flags.optionsOnComment then
    collectComment s1 "SingleLineComment" (sliceUnits s1.source start s1.index)
      s1.startPos s1.index
  else s1

/-- Loop of skipMultiLineComment; yields whether the comment was closed. -/
def skipMultiLineLoop : Nat → ParserState → Bool × ParserState
  | 0, s => (false, s)
  | fuel + 1, s =>
    if s.hasNext then
      let ch := s.nextChar
      if ceq ch Chars.Asterisk then
        let s1 := s.advance
        let (closed, s2) := s1.consume Chars.Slash
        if closed then (true, s2) else skipMultiLineLoop fuel s2
      else if ceq ch Chars.CarriageReturn || ceq ch Chars.LineSeparator ||
              ceq ch Chars.ParagraphSeparator || ceq ch Chars.LineFeed then
        let s1 := s.advanceNewline
        let s2 := if s1.hasNext && ceq s1.nextChar Chars.LineFeed then
            { s1 with index := s1.index + 1 }
          else s1
        skipMultiLineLoop fuel s2
      else skipMultiLineLoop fuel s.advance
    else (false, s)

/-- skipMultiLineComment: fatal when the comment is never closed. -/
def skipMultiLineComment (s : ParserState) : ScanResult ParserState :=
  let start := s.index
  let (closed, s1) := skipMultiLineLoop (s.source.length + 1 - s.index) s
  if !closed then throwAt s1 Errors.UnterminatedComment []
  else if s1.flags.optionsOnComment then
    Except.ok (collectComment s1 "MultiLineComment"
      (sliceUnits s1.source start (s1.index - 2)) s1.startPos s1.index)
  else Except.ok s1

/-- Accumulates one hex digit onto a partial code, as the 32-bit expression
(code × 16) bitor digit does for digit in -1 or 0..15. -/
def hexOr (code digit : Int) : Int :=
  if digit = -1 then -1 else code * 16 + digit

/-- Loop of the braced form inside peekExtendedUnicodeEscape. -/
def peekBracedLoop : Nat → Int → ParserState → ScanResult (Int × ParserState)
  | 0, code, s => Except.ok (code, s)
  | fuel + 1, code, s =>
    let ch := s.nextChar
    if !(ceq ch Chars.RightBrace) then
      let digit := toHex ch
      if digit < 0 then throwAt s Errors.InvalidHexEscapeSequence []
      else
        let code := hexOr code digit
        if code > (Chars.LastUnicodeChar : Int) then
          throwAt s Errors.UnicodeOutOfRange []
        else
          let s := s.advance
          if !s.hasNext then throwAt s Errors.InvalidHexEscapeSequence []
          else peekBracedLoop fuel code s
    else Except.ok (code, s)

/-- Fixed three further digits of the plain form inside
peekExtendedUnicodeEscape; note the source checks code, not the fresh
digit, so a bad digit only surfaces one iteration later. -/
def peekPlainLoop : Nat → Int → ParserState → ScanResult (Int × ParserState)
  | 0, code, s => Except.ok (code, s)
  | i + 1, code, s =>
    let s := s.advance
    if !s.hasNext then throwAt s Errors.InvalidHexEscapeSequence []
    else
      let ch := s.nextChar
      let digit := toHex ch
      if code < 0 then throwAt s Errors.InvalidHexEscapeSequence []
      else
        let code := hexOr code digit
        peekPlainLoop i code s

/-- peekExtendedUnicodeEscape: cooked code point of a backslash-u escape;
the cursor enters on the u. -/
def peekExtendedUnicodeEscape (s : ParserState) :
    ScanResult (Int × ParserState) :=
  let s := s.advance
  if !s.hasNext then throwAt s Errors.InvalidHexEscapeSequence []
  else
    let ch := s.nextChar
    if ceq ch Chars.LeftBrace then
      let s := s.advance
      if !s.hasNext then throwAt s Errors.InvalidHexEscapeSequence []
      else
        let ch := s.nextChar
        if ceq ch Chars.RightBrace then throwAt s Errors.InvalidHexEscapeSequence []
        else
          peekBracedLoop (s.source.length + 1 - s.index) 0 s
    else if s.index + 3 < s.source.length then
      let code := toHex ch
      if code < 0 then throwAt s Errors.InvalidHexEscapeSequence []
      else
        match peekPlainLoop 3 code s with
        | Except.error e => Except.error e
        | Except.ok (code, s) =>
          let ch := s.nextChar
          if ceq ch Chars.LowerU || ceq ch Chars.UpperU then
            throwAt s Errors.InvalidHexEscapeSequence []
          else Except.ok (code, s)
    else throwAt s Errors.InvalidUnicodeEscapeSequence []

/-- scanStringEscape: cooked units of one escape sequence; the cursor
enters on the backslash and leaves on the last unit of the escape.  The
hasNext guard at the top of the source reads the method object, which is
always truthy, so its error branch is dead and omitted here. -/
def scanStringEscape (ctx : Context) (s0 : ParserState) :
    ScanResult (List Nat × ParserState) :=
  let s := s0.advance
  let cp := s.nextChar
  if ceq cp Chars.LowerB then Except.ok ([0x08], s)
  else if ceq cp Chars.LowerT then Except.ok ([0x09], s)
  else if ceq cp Chars.LowerN then Except.ok ([0x0A], s)
  else if ceq cp Chars.LowerV then Except.ok ([0x0B], s)
  else if ceq cp Chars.LowerF then Except.ok ([0x0C], s)
  else if ceq cp Chars.LowerR then Except.ok ([0x0D], s)
  else if ceq cp Chars.Backslash then Except.ok ([0x5C], s)
  else if ceq cp Chars.SingleQuote then Except.ok ([0x27], s)
  else if ceq cp Chars.DoubleQuote then Except.ok ([0x22], s)
  else if ceq cp Chars.LowerU then
    match peekExtendedUnicodeEscape s with
    | Except.error e => Except.error e
    | Except.ok (code, s) => Except.ok (fromCodePoint code, s)
  else if ceq cp Chars.LowerX then
    let s := s.advance
    if !s.hasNext then throwAt s Errors.UnterminatedString []
    else
      let hi := toHex s.nextChar
      if hi < 0 then throwAt s Errors.InvalidHexEscapeSequence []
      else
        let s := s.advance
        if !s.hasNext then throwAt s Errors.UnterminatedString []
        else
          let lo := toHex s.nextChar
          if lo < 0 then throwAt s Errors.InvalidHexEscapeSequence []
          else Except.ok (fromCodePoint (hexOr hi lo), s)
  else if cge cp Chars.Zero && cle cp Chars.Three then
    -- legacy octal, one to three digits
    let code := cp.getD 0 - Chars.Zero
    let index := s.index + 1
    let column := s.column + 1
    if index < s.source.length then
      let next := charCodeAt s.source index
      if clt next Chars.Zero || cgt next Chars.Seven then
        if code ≠ 0 ∧ ctx.strict then throwAt s Errors.StrictOctalLiteral []
        else Except.ok ([code], s)
      else if ctx.strict then throwAt s Errors.StrictOctalLiteral []
      else
        let code := code * 8 + (next.getD 0 - Chars.Zero)
        let index := index + 1
        let column := column + 1
        let step :=
          if index < s.source.length then
            let next := charCodeAt s.source index
            if cge next Chars.Zero && cle next Chars.Seven then
              (code * 8 + (next.getD 0 - Chars.Zero), index + 1, column + 1)
            else (code, index, column)
          else (code, index, column)
        Except.ok ([step.1], { s with index := step.2.1 - 1, column := step.2.2 - 1 })
    else Except.ok ([code], s)
  else if cge cp Chars.Four && cle cp Chars.Seven then
    -- legacy octal, one or two digits
    if ctx.strict then throwAt s Errors.StrictOctalEscape []
    else
      let code := cp.getD 0 - Chars.Zero
      let index := s.index + 1
      let column := s.column + 1
      if index < s.source.length then
        let next := charCodeAt s.source index
        if cge next Chars.Zero && cle next Chars.Seven then
          Except.ok ([code * 8 + (next.getD 0 - Chars.Zero)],
            { s with index := index, column := column })
        else Except.ok ([code], s)
      else Except.ok ([code], s)
  else if ceq cp Chars.Eight || ceq cp Chars.Nine then
    throwAt s Errors.InvalidEightAndNine []
  else if ceq cp Chars.CarriageReturn then
    -- falls through into the line-terminator arm after the CR+LF check;
    -- note the read happens at the position of the CR itself
    let s := if s.hasNext && ceq s.nextChar Chars.LineFeed then s.advance else s
    Except.ok ([], { s with column := -1, line := s.line + 1 })
  else if ceq cp Chars.LineFeed || ceq cp Chars.LineSeparator ||
          ceq cp Chars.ParagraphSeparator then
    Except.ok ([], { s with column := -1, line := s.line + 1 })
  else
    -- the source returns source.charAt(cp): it indexes the source by the
    -- escaped code unit value itself (ToInteger of NaN being 0)
    match charCodeAt s.source (cp.getD 0) with
    | some c => Except.ok ([c], s)
    | none => Except.ok ([], s)

/-- Loop of scanString, carrying the cooked prefix, the start of the
pending plain slice, and the last read unit. -/
def scanStringLoop : Nat → Context → Nat → List Nat → Nat → Option Nat →
    ParserState → ScanResult (List Nat × Nat × Option Nat × ParserState)
  | 0, _, _, ret, start, ch, s => Except.ok (ret, start, ch, s)
  | fuel + 1, ctx, quote, ret, start, chPrev, s =>
    if s.hasNext then
      let ch := s.nextChar
      if ceq ch quote then Except.ok (ret, start, ch, s)
      else if ceq ch Chars.Backslash then
        let ret := ret ++ sliceUnits s.source start s.index
        match scanStringEscape ctx s with
        | Except.error e => Except.error e
        | Except.ok (piece, s) =>
          let s := s.advance
          scanStringLoop fuel ctx quote (ret ++ piece) s.index ch s
      else if ceq ch Chars.CarriageReturn || ceq ch Chars.LineFeed ||
              ceq ch Chars.LineSeparator || ceq ch Chars.ParagraphSeparator then
        throwAt s Errors.UnterminatedString []
      else scanStringLoop fuel ctx quote ret start ch s.advance
    else Except.ok (ret, start, chPrev, s)

/-- scanString: a complete string literal token from the opening quote. -/
def scanString (ctx : Context) (quote : Nat) (s0 : ParserState) :
    ScanResult (Token × ParserState) :=
  let rawStart := s0.index
  let s := s0.advance
  if !s.hasNext then throwAt s Errors.UnterminatedString []
  else
    match scanStringLoop (s.source.length + 1 - s.index) ctx quote [] s.index none s with
    | Except.error e => Except.error e
    | Except.ok (ret, start, ch, s) =>
      let ret := if start ≠ s.index then ret ++ sliceUnits s.source start s.index else ret
      if !(ceq ch quote) then throwAt s Errors.UnterminatedString []
      else
        let s := s.advance
        let s := { s with tokenValue := JSVal.str ret }
        let s := if s.flags.optionsRaw then
            { s with tokenRaw := sliceUnits s.source rawStart s.index }
          else s
        Except.ok (Token.StringLiteral, s)

/-- scanBigInt: consumes the n suffix and stamps the raw slice. -/
def scanBigInt (s : ParserState) : Token × ParserState :=
  let s := s.advance
  let s := if s.flags.optionsRaw then
      { s with tokenRaw := sliceUnits s.source s.startPos s.index }
    else s
  (Token.BigIntLiteral, s)

/-- Digit loop of scanNumberLiteral: accumulates base-8 weights over every
decimal digit, as the source does. -/
def numLitLoop : Nat → Int → Option Nat → ParserState →
    Int × Option Nat × ParserState
  | 0, code, ch, s => (code, ch, s)
  | fuel + 1, code, chPrev, s =>
    if s.hasNext then
      let ch := s.nextChar
      if !(isDigit ch) then (code, ch, s)
      else numLitLoop fuel (code * 8 + ((ch.getD 0 : Int) - Chars.Zero)) ch s.advance
    else (code, chPrev, s)

/-- scanNumberLiteral: legacy octal literal, a leading zero followed by an
octal digit. -/
def scanNumberLiteral (ctx : Context) (s0 : ParserState) :
    ScanResult (Token × ParserState) :=
  if ctx.strict then throwAt s0 Errors.StrictOctalEscape []
  else
    let s := s0.advance
    let ch0 := s.nextChar
    let p := charCodeAt s.source (s.index + 1)
    if ceq p Chars.LowerB || ceq p Chars.UpperB || ceq p Chars.LowerO ||
       ceq p Chars.UpperO then
      throwAt s Errors.Unexpected []
    else
      let r := numLitLoop (s.source.length + 1 - s.index) 0 ch0 s
      let s := { r.2.2 with tokenValue := JSVal.num r.1 }
      if s.flags.optionsNext && ceq r.2.1 Chars.LowerN then Except.ok (scanBigInt s)
      else
        let s := if s.flags.optionsRaw then
            { s with tokenRaw := sliceUnits s.source s.startPos s.index }
          else s
        Except.ok (Token.NumericLiteral, s)

/-- Digit loop of scanOctalDigits: fatal on the digits 8 and 9. -/
def octalLoop : Nat → Int → Option Nat → ParserState →
    ScanResult (Int × Option Nat × ParserState)
  | 0, code, ch, s => Except.ok (code, ch, s)
  | fuel + 1, code, chPrev, s =>
    if s.hasNext then
      let ch := s.nextChar
      if !(isDigit ch) then Except.ok (code, ch, s)
      else if clt ch Chars.Zero || cge ch Chars.Eight then
        throwAt s Errors.InvalidBinaryDigit []
      else octalLoop fuel (code * 8 + ((ch.getD 0 : Int) - Chars.Zero)) ch s.advance
    else Except.ok (code, chPrev, s)

/-- scanOctalDigits: a 0o-prefixed octal literal. -/
def scanOctalDigits (ctx : Context) (s0 : ParserState) :
    ScanResult (Token × ParserState) :=
  if ctx.strict then throwAt s0 Errors.StrictOctalEscape []
  else
    let s := s0.advanceTwice
    if !s.hasNext then throwAt s Errors.InvalidBinaryDigit []
    else
      let ch := s.nextChar
      let code : Int := (ch.getD 0 : Int) - Chars.Zero
      if clt ch Chars.Zero || cge ch Chars.Eight then
        throwAt s Errors.InvalidBinaryDigit []
      else
        let s := s.advance
        match octalLoop (s.source.length + 1 - s.index) code ch s with
        | Except.error e => Except.error e
        | Except.ok (code, ch, s) =>
          let s := { s with tokenValue := JSVal.num code }
          if s.flags.optionsNext && ceq ch Chars.LowerN then Except.ok (scanBigInt s)
          else
            let s := if s.flags.optionsRaw then
                { s with tokenRaw := sliceUnits s.source s.startPos s.index }
              else s
            Except.ok (Token.NumericLiteral, s)

/-- Digit loop of scanHexadecimalDigit. -/
def hexLoop : Nat → Int → Option Nat → ParserState →
    Int × Option Nat × ParserState
  | 0, code, ch, s => (code, ch, s)
  | fuel + 1, code, chPrev, s =>
    if s.hasNext then
      let ch := s.nextChar
      let digit := toHex ch
      if digit < 0 then (code, ch, s)
      else hexLoop fuel (hexOr code digit) ch s.advance
    else (code, chPrev, s)

/-- scanHexadecimalDigit: a 0x-prefixed hexadecimal literal. -/
def scanHexadecimalDigit (s0 : ParserState) : ScanResult (Token × ParserState) :=
  let s := s0.advanceTwice
  if !s.hasNext then throwAt s Errors.ExpectedHexDigits []
  else
    let ch := s.nextChar
    let code := toHex ch
    if code < 0 then throwAt s Errors.InvalidHexEscapeSequence []
    else
      let s := s.advance
      let r := hexLoop (s.source.length + 1 - s.index) code ch s
      let s := { r.2.2 with tokenValue := JSVal.num r.1 }
      if s.flags.optionsNext && ceq r.2.1 Chars.LowerN then Except.ok (scanBigInt s)
      else
        let s := if s.flags.optionsRaw then
            { s with tokenRaw := sliceUnits s.source s.startPos s.index }
          else s
        Except.ok (Token.NumericLiteral, s)

/-- Digit loop of scanBinaryDigits: fatal on the digits 2 through 9. -/
def binaryLoop : Nat → Int → Option Nat → ParserState →
    ScanResult (Int × Option Nat × ParserState)
  | 0, code, ch, s => Except.ok (code, ch, s)
  | fuel + 1, code, chPrev, s =>
    if s.hasNext then
      let ch := s.nextChar
      if !(isDigit ch) then Except.ok (code, ch, s)
      else if !(ceq ch Chars.Zero || ceq ch Chars.One) then
        throwAt s Errors.InvalidBinaryDigit []
      else binaryLoop fuel (code * 2 + ((ch.getD 0 : Int) - Chars.Zero)) ch s.advance
    else Except.ok (code, chPrev, s)

/-- scanBinaryDigits: a 0b-prefixed binary literal.  The first read has no
hasNext guard in the source; the NaN read then fails the zero-or-one check
below, which the none case models. -/
def scanBinaryDigits (_ctx : Context) (s0 : ParserState) :
    ScanResult (Token × ParserState) :=
  let s := s0.advanceTwice
  let ch := s.nextChar
  let code : Int := (ch.getD 0 : Int) - Chars.Zero
  if !(ceq ch Chars.Zero || ceq ch Chars.One) then
    throwAt s Errors.InvalidBinaryDigit []
  else
    let s := s.advance
    match binaryLoop (s.source.length + 1 - s.index) code ch s with
    | Except.error e => Except.error e
    | Except.ok (code, ch, s) =>
      let s := { s with tokenValue := JSVal.num code }
      if s.flags.optionsNext && ceq ch Chars.LowerN then Except.ok (scanBigInt s)
      else
        let s := if s.flags.optionsRaw then
            { s with tokenRaw := sliceUnits s.source s.startPos s.index }
          else s
        Except.ok (Token.NumericLiteral, s)

/-- Loop of skipDigits. -/
def skipDigitsLoop : Nat → ParserState → ParserState
  | 0, s => s
  | fuel + 1, s =>
    if s.hasNext then
      if cge s.nextChar Chars.Zero && cle s.nextChar Chars.Nine then
        skipDigitsLoop fuel s.advance
      else s
    else s

/-- skipDigits. -/
def skipDigits (s : ParserState) : ParserState :=
  skipDigitsLoop (s.source.length + 1 - s.index) s

/-- NumberState bits of masks.ts, one Boolean per bit. -/
structure NumberStateS where
  float : Bool
  bigint : Bool
  deriving DecidableEq, Repr

/-- Shared tail of the trailing switch in scanNumber.  In the source the
bigint arm falls through into the exponent arm, and inside the exponent arm
the sign arm falls through into the first-digit arm; exp records whether
the exponent arm runs at all. -/
def scanNumberTail (start : Nat) (st : NumberStateS) (endPos : Nat)
    (s : ParserState) (exp : Bool) : Token × ParserState :=
  let r :=
    if exp then
      let s := s.advance
      let st := { st with float := true }
      if ceq s.nextChar Chars.Plus || ceq s.nextChar Chars.Hyphen then
        -- the sign arm falls through into the digit arm, which advances
        -- unconditionally before skipping the remaining digits
        let s := (s.advance).advance
        let s := skipDigits s
        (st, s.index, s)
      else if cge s.nextChar Chars.Zero && cle s.nextChar Chars.Nine then
        let s := s.advance
        let s := skipDigits s
        (st, s.index, s)
      else (st, endPos, s)
    else (st, endPos, s)
  let st := r.1
  let endPos := r.2.1
  let s := r.2.2
  let s := if s.flags.optionsRaw then
      { s with tokenRaw := substringU s.source start endPos }
    else s
  let s := { s with tokenValue := parseFloat (substringU s.source start endPos) }
  if st.bigint then (Token.BigIntLiteral, s) else (Token.NumericLiteral, s)

/-- scanNumber: decimal literal (integer, fraction, exponent, and under
the next option a trailing n bigint). -/
def scanNumber (_ctx : Context) (_first : Option Nat) (s0 : ParserState) :
    ScanResult (Token × ParserState) :=
  let start := s0.index
  let st : NumberStateS := ⟨false, false⟩
  let s := skipDigits s0
  let r1 :=
    if ceq s.nextChar Chars.Period then
      ({ st with float := true }, skipDigits s.advance)
    else (st, s)
  let st := r1.1
  let s := r1.2
  let endPos := s.index
  if ceq s.nextChar Chars.LowerN then
    if s.flags.optionsNext then
      if st.float then throwAt s Errors.Unexpected []
      else
        Except.ok (scanNumberTail start { st with bigint := true } endPos s.advance true)
    else Except.ok (scanNumberTail start st endPos s true)
  else if ceq s.nextChar Chars.UpperE || ceq s.nextChar Chars.LowerE then
    Except.ok (scanNumberTail start st endPos s true)
  else Except.ok (scanNumberTail start st endPos s false)

/-- nextUnicodeChar: advances once and decodes a surrogate pair, except
that the second read in the source happens at the same position as the
first, so the low half always equals the high half. -/
def nextUnicodeChar (s : ParserState) : Option Nat × ParserState :=
  let s := s.advance
  let hi := s.nextChar
  if clt hi 0xD800 || cgt hi 0xDBFF then (hi, s)
  else if s.index == s.source.length then (hi, s)
  else
    let lo := s.nextChar
    if clt lo 0xDC00 || cgt lo 0xDFFF then (hi, s)
    else
      (some ((((hi.getD 0) &&& 0x3FF) <<< 10) ||| ((lo.getD 0) &&& 0x3FF) ||| 0x10000), s)

/-- RegExpState bits of masks.ts, one Boolean per bit. -/
structure RegexPreparse where
  escape : Bool
  cls : Bool
  deriving DecidableEq, Repr

/- Modelled from the spec: RegExpFlag bits of masks.ts (one bit per
flag). -/
namespace RegExpFlag

def Global : Nat := 1
def IgnoreCase : Nat := 2
def Multiline : Nat := 4
def Unicode : Nat := 8
def Sticky : Nat := 16
def DotAll : Nat := 32

end RegExpFlag

/-- Outcome of the body loop of scanRegularExpression: either the body
closed at the given local index, or the newline arm returned the current
token early. -/
inductive RegexBodyOut where
  | closed (index : Nat) (s : ParserState)
  | earlyReturn (t : Token) (s : ParserState)
  deriving DecidableEq, Repr

/-- Body loop of scanRegularExpression: a two-bit machine over escapes and
character classes, closing on an unescaped slash outside a class. -/
def regexBodyLoop : Nat → Nat → RegexPreparse → ParserState →
    ScanResult RegexBodyOut
  | 0, index, _, s => Except.ok (RegexBodyOut.closed index s)
  | fuel + 1, index0, pre, s0 =>
    let ch := charCodeAt s0.source index0
    let index := index0 + 1
    let s := { s0 with column := s0.column + 1 }
    let step : Option (ScanResult RegexBodyOut) × RegexPreparse :=
      if pre.escape then (none, { pre with escape := false })
      else if ceq ch Chars.Slash then
        if !pre.escape && !pre.cls then
          (some (Except.ok (RegexBodyOut.closed index s)), pre)
        else (none, pre)
      else if ceq ch Chars.Backslash then (none, { pre with escape := true })
      else if ceq ch Chars.LeftBracket then (none, { pre with cls := true })
      else if ceq ch Chars.RightBracket then (none, ⟨pre.escape, false⟩)
      else if ceq ch Chars.CarriageReturn || ceq ch Chars.LineFeed ||
              ceq ch Chars.LineSeparator || ceq ch Chars.ParagraphSeparator then
        (some (Except.ok (RegexBodyOut.earlyReturn s.token { s with index := index })), pre)
      else (none, pre)
    match step.1 with
    | some out => out
    | none =>
      if s.source.length ≤ index then throwAt s Errors.UnterminatedRegExp []
      else regexBodyLoop fuel index step.2 s

/-- Flag loop of scanRegularExpression: each of g i m u y (and s under the
next option) may appear at most once; any other identifier-part unit is
fatal; the loop stops at the first non-identifier-part unit. -/
def regexFlagsLoop : Nat → Nat → Nat → ParserState →
    ScanResult (Nat × Nat × ParserState)
  | 0, index, mask, s => Except.ok (index, mask, s)
  | fuel + 1, index, mask, s =>
    if index < s.source.length then
      if !(isIdPartO (charCodeAt s.source index)) then Except.ok (index, mask, s)
      else
        let code := charCodeAt s.source index
        if ceq code Chars.LowerG then
          if mask &&& RegExpFlag.Global ≠ 0 then
            throwAt s Errors.DuplicateRegExpFlag [[Chars.LowerG]]
          else regexFlagsLoop fuel (index + 1) (mask ||| RegExpFlag.Global)
            { s with column := s.column + 1 }
        else if ceq code Chars.LowerI then
          if mask &&& RegExpFlag.IgnoreCase ≠ 0 then
            throwAt s Errors.DuplicateRegExpFlag [[Chars.LowerI]]
          else regexFlagsLoop fuel (index + 1) (mask ||| RegExpFlag.IgnoreCase)
            { s with column := s.column + 1 }
        else if ceq code Chars.LowerM then
          if mask &&& RegExpFlag.Multiline ≠ 0 then
            throwAt s Errors.DuplicateRegExpFlag [[Chars.LowerM]]
          else regexFlagsLoop fuel (index + 1) (mask ||| RegExpFlag.Multiline)
            { s with column := s.column + 1 }
        else if ceq code Chars.LowerU then
          if mask &&& RegExpFlag.Unicode ≠ 0 then
            throwAt s Errors.DuplicateRegExpFlag [[Chars.LowerU]]
          else regexFlagsLoop fuel (index + 1) (mask ||| RegExpFlag.Unicode)
            { s with column := s.column + 1 }
        else if ceq code Chars.LowerY then
          if mask &&& RegExpFlag.Sticky ≠ 0 then
            throwAt s Errors.DuplicateRegExpFlag [[Chars.LowerY]]
          else regexFlagsLoop fuel (index + 1) (mask ||| RegExpFlag.Sticky)
            { s with column := s.column + 1 }
        else if ceq code Chars.LowerS && s.flags.optionsNext then
          -- stage-3 proposal; without the next option the s arm falls
          -- through into the default arm below
          if mask &&& RegExpFlag.DotAll ≠ 0 then
            throwAt s Errors.DuplicateRegExpFlag [[Chars.LowerS]]
          else regexFlagsLoop fuel (index + 1) (mask ||| RegExpFlag.DotAll)
            { s with column := s.column + 1 }
        else
          let r := if cge code 0xD800 && cle code 0xDC00 then nextUnicodeChar s
            else (code, s)
          if !(isIdPartO r.1) then Except.ok (index, mask, r.2)
          else throwAt r.2 Errors.UnexpectedTokenRegExpFlag []
    else Except.ok (index, mask, s)

/-- scanRegularExpression: rescans from the token start, which the parser
has already placed on the opening slash. -/
def scanRegularExpression (s0 : ParserState) : ScanResult (Token × ParserState) :=
  let bodyStart := s0.startPos + 1
  match regexBodyLoop (s0.source.length + 2) bodyStart ⟨false, false⟩ s0 with
  | Except.error e => Except.error e
  | Except.ok (RegexBodyOut.earlyReturn t s) => Except.ok (t, s)
  | Except.ok (RegexBodyOut.closed index s) =>
    let bodyEnd := index - 1
    let flagsStart := index
    match regexFlagsLoop (s.source.length + 1) index 0 s with
    | Except.error e => Except.error e
    | Except.ok (index, _mask, s) =>
      let s := { s with endPos := s.index, index := index }
      let pattern := sliceUnits s.source bodyStart bodyEnd
      let flagsStr := sliceUnits s.source flagsStart s.index
      let s := { s with tokenRegExp := some (pattern, flagsStr),
                        tokenValue := tryCreate pattern flagsStr }
      let s := if s.flags.optionsRaw then
          { s with tokenRaw := sliceUnits s.source s.startPos s.index }
        else s
      Except.ok (Token.RegularExpression, s)

/-- Whitespace case labels of scanToken. -/
def isWhiteSpaceUnit (c : Nat) : Bool :=
  c == Chars.Tab || c == Chars.VerticalTab || c == Chars.FormFeed ||
  c == Chars.Space || c == Chars.NonBreakingSpace || c == Chars.Ogham ||
  c == Chars.EnQuad || c == Chars.EmQuad || c == Chars.EnSpace ||
  c == Chars.EmSpace || c == Chars.ThreePerEmSpace || c == Chars.FourPerEmSpace ||
  c == Chars.SixPerEmSpace || c == Chars.FigureSpace || c == Chars.PunctuationSpace ||
  c == Chars.ThinSpace || c == Chars.HairSpace || c == Chars.NarrowNoBreakSpace ||
  c == Chars.MathematicalSpace || c == Chars.IdeographicSpace ||
  c == Chars.ZeroWidthNoBreakSpace

/-- Case labels of scanToken that dispatch to scanIdentifier: a backslash
escape or an ASCII identifier start. -/
def isIdentCaseUnit (c : Nat) : Bool :=
  c == Chars.Backslash || c == Chars.Dollar || c == Chars.Underscore ||
  (Chars.UpperA ≤ c && c ≤ Chars.UpperZ) || (Chars.LowerA ≤ c && c ≤ Chars.LowerZ)

/-- Main loop of scanToken.  Whitespace and comment arms continue the
loop; token arms return.  The template and identifier sub-scanners are
outside the modelled fragment (their keyword and Unicode tables are not in
the provided sources), so those arms fail with an unmodelled marker; no
checked claim routes through them. -/
def scanTokenLoop : Nat → Context → ParserState → ScanResult (Token × ParserState)
  | 0, _, _ => Except.error ScanFail.fuelOut
  | fuel + 1, ctx, s =>
    match s.nextChar with
    | none => Except.ok (Token.EndOfSource, s)
    | some c =>
      let s := { s with startPos := s.index, startColumn := s.column,
                        startLine := s.line }
      if c = Chars.CarriageReturn ∨ c = Chars.LineFeed then
        let s1 := s.advanceNewline
        let s2 := if s1.hasNext && c == Chars.CarriageReturn &&
            ceq s1.nextChar Chars.LineFeed then
            { s1 with index := s1.index + 1 }
          else s1
        scanTokenLoop fuel ctx s2
      else if c = Chars.LineSeparator ∨ c = Chars.ParagraphSeparator then
        scanTokenLoop fuel ctx s.advanceNewline
      else if isWhiteSpaceUnit c then
        scanTokenLoop fuel ctx s.advance
      else if c = Chars.Slash then
        let s := s.advance
        if ceq s.nextChar Chars.Slash then
          scanTokenLoop fuel ctx (skipSingleLineComment 2 s.advance)
        else if ceq s.nextChar Chars.Asterisk then
          match skipMultiLineComment s.advance with
          | Except.error e => Except.error e
          | Except.ok s => scanTokenLoop fuel ctx s
        else if ceq s.nextChar Chars.EqualSign then
          Except.ok (Token.DivideAssign, s.advance)
        else Except.ok (Token.Divide, s)
      else if c = Chars.LessThan then
        let s := s.advance
        -- the shortcut chain keeps the units consumed by earlier
        -- conjuncts even when a later conjunct fails
        let html :=
          if !ctx.module then
            let (ok1, s) := s.consume Chars.Exclamation
            if ok1 then
              let (ok2, s) := s.consume Chars.Hyphen
              if ok2 then s.consume Chars.Hyphen
              else (false, s)
            else (false, s)
          else (false, s)
        let s := html.2
        if html.1 then scanTokenLoop fuel ctx (skipSingleLineComment 4 s)
        else
          let next := s.nextChar
          if ceq next Chars.LessThan then
            let s := s.advance
            let r := s.consume Chars.EqualSign
            Except.ok (if r.1 then Token.ShiftLeftAssign else Token.ShiftLeft, r.2)
          else if ceq next Chars.EqualSign then
            Except.ok (Token.LessThanOrEqual, s.advance)
          else if ceq next Chars.Slash then
            -- when the JSXClose arm breaks, control falls out of the
            -- LessThan case into the Hyphen case below
            let jsxBreak :=
              if !s.flags.optionsJSX then true
              else
                let next2 := charCodeAt s.source (s.index + 1)
                ceq next2 Chars.Asterisk || ceq next2 Chars.Slash
            if jsxBreak then
              -- duplicated Hyphen case body (fall-through target)
              let s := s.advance
              let next := s.nextChar
              if ceq next Chars.Hyphen then
                let s := s.advance
                let r := s.consume Chars.GreaterThan
                if r.1 then
                  let s := if !ctx.module || r.2.flags.lineTerminator then
                      skipSingleLineComment 3 r.2
                    else r.2
                  scanTokenLoop fuel ctx s
                else Except.ok (Token.Decrement, r.2)
              else if ceq next Chars.EqualSign then
                Except.ok (Token.SubtractAssign, s.advance)
              else Except.ok (Token.Subtract, s)
            else Except.ok (Token.JSXClose, s.advance)
          else Except.ok (Token.LessThan, s)
      else if c = Chars.Hyphen then
        let s := s.advance
        let next := s.nextChar
        if ceq next Chars.Hyphen then
          let s := s.advance
          let r := s.consume Chars.GreaterThan
          if r.1 then
            let s := if !ctx.module || r.2.flags.lineTerminator then
                skipSingleLineComment 3 r.2
              else r.2
            scanTokenLoop fuel ctx s
          else Except.ok (Token.Decrement, r.2)
        else if ceq next Chars.EqualSign then
          Except.ok (Token.SubtractAssign, s.advance)
        else Except.ok (Token.Subtract, s)
      else if c = Chars.Hash then
        if s.index = 0 && ceq (charCodeAt s.source (s.index + 1)) Chars.Exclamation then
          scanTokenLoop fuel ctx (skipShebangComment s.advanceTwice)
        else
          -- the Hash case has no break: control falls through into the
          -- LeftBrace case
          Except.ok (Token.LeftBrace, s.advance)
      else if c = Chars.LeftBrace then Except.ok (Token.LeftBrace, s.advance)
      else if c = Chars.RightBrace then
        let s := s.advance
        Except.ok (Token.RightBrace,
          { s with flags := { s.flags with lineTerminator := true } })
      else if c = Chars.Tilde then Except.ok (Token.Complement, s.advance)
      else if c = Chars.QuestionMark then Except.ok (Token.QuestionMark, s.advance)
      else if c = Chars.LeftBracket then Except.ok (Token.LeftBracket, s.advance)
      else if c = Chars.RightBracket then Except.ok (Token.RightBracket, s.advance)
      else if c = Chars.Comma then Except.ok (Token.Comma, s.advance)
      else if c = Chars.Colon then Except.ok (Token.Colon, s.advance)
      else if c = Chars.Semicolon then Except.ok (Token.Semicolon, s.advance)
      else if c = Chars.LeftParen then Except.ok (Token.LeftParen, s.advance)
      else if c = Chars.RightParen then Except.ok (Token.RightParen, s.advance)
      else if c = Chars.Backtick then Except.error (ScanFail.unmodelled "scanTemplate")
      else if c = Chars.DoubleQuote ∨ c = Chars.SingleQuote then
        scanString ctx c s
      else if c = Chars.Ampersand then
        let s := s.advance
        let next := s.nextChar
        if ceq next Chars.Ampersand then Except.ok (Token.LogicalAnd, s.advance)
        else if ceq next Chars.EqualSign then Except.ok (Token.BitwiseAndAssign, s.advance)
        else Except.ok (Token.BitwiseAnd, s)
      else if c = Chars.Percent then
        let s := s.advance
        let r := s.consume Chars.EqualSign
        Except.ok (if r.1 then Token.ModuloAssign else Token.Modulo, r.2)
      else if c = Chars.Exclamation then
        let s := s.advance
        let r := s.consume Chars.EqualSign
        if !r.1 then Except.ok (Token.Negate, r.2)
        else
          let r2 := r.2.consume Chars.EqualSign
          Except.ok (if r2.1 then Token.StrictNotEqual else Token.LooseNotEqual, r2.2)
      else if c = Chars.Caret then
        let s := s.advance
        let r := s.consume Chars.EqualSign
        Except.ok (if r.1 then Token.BitwiseXorAssign else Token.BitwiseXor, r.2)
      else if c = Chars.Asterisk then
        let s := s.advance
        if !s.hasNext then Except.ok (Token.Multiply, s)
        else
          let next := s.nextChar
          if ceq next Chars.EqualSign then Except.ok (Token.MultiplyAssign, s.advance)
          else if !(ceq next Chars.Asterisk) then Except.ok (Token.Multiply, s)
          else
            let s := s.advance
            let r := s.consume Chars.EqualSign
            Except.ok (if r.1 then Token.ExponentiateAssign else Token.Exponentiate, r.2)
      else if c = Chars.Plus then
        let s := s.advance
        if !s.hasNext then Except.ok (Token.Add, s)
        else
          let next := s.nextChar
          if ceq next Chars.Plus then Except.ok (Token.Increment, s.advance)
          else if ceq next Chars.EqualSign then Except.ok (Token.AddAssign, s.advance)
          else Except.ok (Token.Add, s)
      else if c = Chars.EqualSign then
        let s := s.advance
        if !s.hasNext then Except.ok (Token.Assign, s)
        else
          let next := s.nextChar
          if ceq next Chars.EqualSign then
            let s := s.advance
            let r := s.consume Chars.EqualSign
            Except.ok (if r.1 then Token.StrictEqual else Token.LooseEqual, r.2)
          else if ceq next Chars.GreaterThan then Except.ok (Token.Arrow, s.advance)
          else Except.ok (Token.Assign, s)
      else if c = Chars.GreaterThan then
        let s := s.advance
        if ctx.jsxChild then Except.ok (Token.GreaterThan, s)
        else
          let next := s.nextChar
          if ceq next Chars.EqualSign then Except.ok (Token.GreaterThanOrEqual, s.advance)
          else if !(ceq next Chars.GreaterThan) then Except.ok (Token.GreaterThan, s)
          else
            let s := s.advance
            let next := s.nextChar
            if ceq next Chars.GreaterThan then
              let s := s.advance
              let r := s.consume Chars.EqualSign
              Except.ok (if r.1 then Token.LogicalShiftRightAssign
                else Token.LogicalShiftRight, r.2)
            else if ceq next Chars.EqualSign then
              Except.ok (Token.ShiftRightAssign, s.advance)
            else Except.ok (Token.ShiftRight, s)
      else if c = Chars.VerticalBar then
        let s := s.advance
        let next := s.nextChar
        if ceq next Chars.VerticalBar then Except.ok (Token.LogicalOr, s.advance)
        else if ceq next Chars.EqualSign then Except.ok (Token.BitwiseOrAssign, s.advance)
        else Except.ok (Token.BitwiseOr, s)
      else if c = Chars.Period then
        let index := s.index + 1
        let viaNumber :=
          if index < s.source.length then
            let next := charCodeAt s.source index
            if cge next Chars.Zero && cle next Chars.Nine then (1 : Nat)
            else if ceq next Chars.Period then
              let index := index + 1
              if index < s.source.length &&
                  ceq (charCodeAt s.source index) Chars.Period then (2 : Nat)
              else 0
            else 0
          else 0
        if viaNumber = 1 then
          -- the returned kind from scanNumber is discarded in the source
          match scanNumber ctx (some c) s with
          | Except.error e => Except.error e
          | Except.ok (_, s) => Except.ok (Token.NumericLiteral, s)
        else if viaNumber = 2 then
          Except.ok (Token.Ellipsis,
            { s with index := s.index + 3, column := s.column + 3 })
        else Except.ok (Token.Period, s.advance)
      else if c = Chars.Zero then
        let index := s.index + 1
        let prefixKind :=
          if index + 1 < s.source.length then
            let p := charCodeAt s.source index
            if ceq p Chars.LowerX || ceq p Chars.UpperX then (1 : Nat)
            else if ceq p Chars.LowerB || ceq p Chars.UpperB then 2
            else if ceq p Chars.LowerO || ceq p Chars.UpperO then 3
            else 0
          else 0
        if prefixKind = 1 then scanHexadecimalDigit s
        else if prefixKind = 2 then scanBinaryDigits ctx s
        else if prefixKind = 3 then scanOctalDigits ctx s
        else
          let ch := charCodeAt s.source index
          if index < s.source.length && cge ch Chars.Zero && cle ch Chars.Seven then
            scanNumberLiteral ctx s
          else
            -- the Zero case falls through into the digit case
            scanNumber ctx (some c) s
      else if Chars.One ≤ c ∧ c ≤ Chars.Nine then
        scanNumber ctx (some c) s
      else if isIdentCaseUnit c then Except.error (ScanFail.unmodelled "scanIdentifier")
      else if isValidIdentifierStart c then
        Except.error (ScanFail.unmodelled "scanIdentifier")
      else throwAt s Errors.Unexpected []

/-- scanToken: clears the LineTerminator flag, stashes the previous token
end position, and runs the scan loop. -/
def scanToken (ctx : Context) (s : ParserState) : ScanResult (Token × ParserState) :=
  let s := { s with flags := { s.flags with lineTerminator := false },
                    endPos := s.index, endColumn := s.column, endLine := s.line }
  scanTokenLoop (s.source.length + 1 - s.index) ctx s

/-- nextToken: scans and stores the next token. -/
def nextToken (ctx : Context) (s : ParserState) : ScanResult ParserState :=
  match scanToken ctx s with
  | Except.error e => Except.error e
  | Except.ok (t, s) => Except.ok { s with token := t }

/-- SavedState: the snapshot taken before a speculative probe. -/
structure SavedState where
  index : Nat
  column : Int
  line : Nat
  startLine : Nat
  endLine : Nat
  startColumn : Int
  endColumn : Int
  token : Token
  tokenValue : JSVal
  tokenRaw : List Nat
  startPos : Nat
  endPos : Nat
  tokenRegExp : Option (List Nat × List Nat)
  flags : Flags
  deriving DecidableEq, Repr

/-- saveState: copies the fields listed in the source. -/
def saveState (s : ParserState) : SavedState :=
  ⟨s.index, s.column, s.line, s.startLine, s.endLine, s.startColumn,
   s.endColumn, s.token, s.tokenValue, s.tokenRaw, s.startPos, s.endPos,
   s.tokenRegExp, s.flags⟩

/-- rewindState: restores every saved field. -/
def rewindState (s : ParserState) (t : SavedState) : ParserState :=
  { s with index := t.index, column := t.column, line := t.line,
           token := t.token, tokenValue := t.tokenValue,
           startPos := t.startPos, endPos := t.endPos, endLine := t.endLine,
           startLine := t.startLine, startColumn := t.startColumn,
           endColumn := t.endColumn, tokenRegExp := t.tokenRegExp,
           tokenRaw := t.tokenRaw, flags := t.flags }

/-- canConsumeSemicolon: a line terminator before the current token, or a
semicolon, right brace, or end of source as the current token. -/
def canConsumeSemicolon (s : ParserState) : Bool :=
  if s.flags.lineTerminator then true
  else s.token == Token.Semicolon || s.token == Token.RightBrace ||
       s.token == Token.EndOfSource

/-- expect: requires the given token and scans past it. -/
def expect (ctx : Context) (t : Token) (s : ParserState) : ScanResult ParserState :=
  if s.token ≠ t then throwAt s Errors.Unexpected []
  else nextToken ctx s

/-- consumeSemicolon: the automatic-semicolon-insertion gate. -/
def consumeSemicolon (ctx : Context) (s : ParserState) : ScanResult ParserState :=
  if !canConsumeSemicolon s then
    throwAt s Errors.UnexpectedToken [tokenDesc s.token]
  else if s.token = Token.Semicolon then expect ctx Token.Semicolon s
  else Except.ok s

/-- nextTokenIsLeftParen: speculative probe, snapshot and full rewind. -/
def nextTokenIsLeftParen (ctx : Context) (s : ParserState) :
    ScanResult (Bool × ParserState) :=
  let savedState := saveState s
  match nextToken ctx s with
  | Except.error e => Except.error e
  | Except.ok s1 =>
    let next := s1.token
    Except.ok (next == Token.LeftParen, rewindState s1 savedState)

/-- isLexical: speculative probe deciding whether let heads a lexical
declaration. -/
def isLexical (ctx : Context) (s : ParserState) : ScanResult (Bool × ParserState) :=
  let savedState := saveState s
  match nextToken ctx s with
  | Except.error e => Except.error e
  | Except.ok s1 =>
    let next := s1.token
    Except.ok (hasMask next Token.BindingPattern, rewindState s1 savedState)

/-- nextTokenIsFunctionKeyword: speculative probe for async function
heads; also requires the next token on the same line. -/
def nextTokenIsFunctionKeyword (ctx : Context) (s : ParserState) :
    ScanResult (Bool × ParserState) :=
  let savedState := saveState s
  match nextToken ctx s with
  | Except.error e => Except.error e
  | Except.ok s1 =>
    let next := s1.token
    let line := s1.line
    let s2 := rewindState s1 savedState
    Except.ok (s2.line == line && next == Token.FunctionKeyword, s2)

/- AST nodes for the expression-to-pattern walker.  The node shapes follow
ESTree (estree.ts is not in the provided sources); only the fields the
walker reads or rewrites are carried, and a node kind the walker does not
inspect is collapsed to its type string. -/

mutual

/-- ESTree node fragment visited by reinterpretExpressionAsPattern. -/
inductive JSNode where
  | Identifier (name : String)
  | MemberExpression (objectE : JSNode) (property : JSNode) (computed : Bool)
  | AssignmentPattern (left : JSNode) (right : JSNode)
  | ArrayPattern (elements : List (Option JSNode))
  | ObjectPattern (properties : List JSProp)
  | ObjectExpression (properties : List JSProp)
  | ArrayExpression (elements : List (Option JSNode))
  | AssignmentExpression (operator : String) (left : JSNode) (right : JSNode)
  | SpreadElement (argument : JSNode)
  | RestElement (argument : JSNode)
  | Other (ty : String)

/-- Entry of an object literal property list: a Property node with its
kind, or a SpreadElement node, whose kind field is undefined. -/
inductive JSProp where
  | property (kind : String) (key : JSNode) (value : JSNode)
  | spread (argument : JSNode)

end

/-- Pattern-form test: the five node kinds on which the walker is
specified to be a no-op. -/
def JSNode.isPatternForm : JSNode → Bool
  | JSNode.Identifier _ => true
  | JSNode.MemberExpression _ _ _ => true
  | JSNode.AssignmentPattern _ _ => true
  | JSNode.ArrayPattern _ => true
  | JSNode.ObjectPattern _ => true
  | _ => false

/-- Type string of a node, as the walker tests params.type. -/
def JSNode.typeName : JSNode → String
  | JSNode.Identifier _ => "Identifier"
  | JSNode.MemberExpression _ _ _ => "MemberExpression"
  | JSNode.AssignmentPattern _ _ => "AssignmentPattern"
  | JSNode.ArrayPattern _ => "ArrayPattern"
  | JSNode.ObjectPattern _ => "ObjectPattern"
  | JSNode.ObjectExpression _ => "ObjectExpression"
  | JSNode.ArrayExpression _ => "ArrayExpression"
  | JSNode.AssignmentExpression _ _ _ => "AssignmentExpression"
  | JSNode.SpreadElement _ => "SpreadElement"
  | JSNode.RestElement _ => "RestElement"
  | JSNode.Other ty => ty

mutual

/-- reinterpretExpressionAsPattern: rewrites an expression in place into
the pattern it covers; the in-place type mutations of the source become a
rebuilt node here.  Errors carry the current token of the parser state. -/
def reinterpretExpressionAsPattern (ctx : Context) (st : ParserState) :
    JSNode → ScanResult JSNode
  | JSNode.Identifier n => Except.ok (JSNode.Identifier n)
  | JSNode.MemberExpression o p c => Except.ok (JSNode.MemberExpression o p c)
  | JSNode.AssignmentPattern l r => Except.ok (JSNode.AssignmentPattern l r)
  | JSNode.ArrayPattern es => Except.ok (JSNode.ArrayPattern es)
  | JSNode.ObjectPattern ps => Except.ok (JSNode.ObjectPattern ps)
  | JSNode.ObjectExpression ps =>
    match reinterpretProps ctx st ps with
    | Except.error e => Except.error e
    | Except.ok ps => Except.ok (JSNode.ObjectPattern ps)
  | JSNode.ArrayExpression es =>
    match reinterpretElems ctx st es with
    | Except.error e => Except.error e
    | Except.ok es => Except.ok (JSNode.ArrayPattern es)
  | JSNode.AssignmentExpression op l r =>
    if op ≠ "=" then throwAt st Errors.UnexpectedToken [tokenDesc st.token]
    else
      -- the operator field is deleted by the type flip
      match reinterpretExpressionAsPattern ctx st l with
      | Except.error e => Except.error e
      | Except.ok l => Except.ok (JSNode.AssignmentPattern l r)
  | JSNode.SpreadElement arg =>
    if arg.typeName = "AssignmentExpression" then
      throwAt st (if ctx.forStatement then Errors.InvalidLHSInForIn
        else Errors.InvalidLHSInAssignment) []
    else
      match reinterpretExpressionAsPattern ctx st arg with
      | Except.error e => Except.error e
      | Except.ok arg => Except.ok (JSNode.RestElement arg)
  | JSNode.RestElement a =>
    let _ := a
    throwAt st Errors.UnexpectedToken [tokenDesc st.token]
  | JSNode.Other ty =>
    let _ := ty
    throwAt st Errors.UnexpectedToken [tokenDesc st.token]

/-- Property walk of the ObjectExpression arm.  A property whose kind is
not the string init is fatal; a SpreadElement entry has no kind field, so
it always fails that check, before the spread branch of the ternary could
run. -/
def reinterpretProps (ctx : Context) (st : ParserState) :
    List JSProp → ScanResult (List JSProp)
  | [] => Except.ok []
  | JSProp.spread arg :: _ =>
    let _ := arg
    throwAt st Errors.UnexpectedToken [tokenDesc st.token]
  | JSProp.property kind key value :: rest =>
    if kind ≠ "init" then throwAt st Errors.UnexpectedToken [tokenDesc st.token]
    else
      match reinterpretExpressionAsPattern ctx st value with
      | Except.error e => Except.error e
      | Except.ok value =>
        match reinterpretProps ctx st rest with
        | Except.error e => Except.error e
        | Except.ok rest => Except.ok (JSProp.property kind key value :: rest)

/-- Element walk of the ArrayExpression arm; holes are skipped. -/
def reinterpretElems (ctx : Context) (st : ParserState) :
    List (Option JSNode) → ScanResult (List (Option JSNode))
  | [] => Except.ok []
  | none :: rest =>
    match reinterpretElems ctx st rest with
    | Except.error e => Except.error e
    | Except.ok rest => Except.ok (none :: rest)
  | some el :: rest =>
    match reinterpretExpressionAsPattern ctx st el with
    | Except.error e => Except.error e
    | Except.ok el =>
      match reinterpretElems ctx st rest with
      | Except.error e => Except.error e
      | Except.ok rest => Except.ok (some el :: rest)

end

/- Scope subsystem.  The three scope references of the Parser object are
JavaScript objects chained by Object.create; the embedding gives them an
explicit store of frames, each with its own entries and a prototype index,
and the three references are frame indices.  The scope functions never
touch the scanner fields, so they act on this record alone; the location
carried by a thrown scope error derives from scanner fields and is
omitted. -/

/-- Modelled from the spec: ScopeMasks of masks.ts. -/
def ScopeMasks.Shadowable : Nat := 1

/-- Modelled from the spec: ScopeMasks of masks.ts. -/
def ScopeMasks.NonShadowable : Nat := 2

/-- One scope object: own bindings in insertion order plus a prototype
frame. -/
structure ScopeFrame where
  entries : List (String × Nat)
  proto : Option Nat
  deriving DecidableEq, Repr

/-- The three scope references of the Parser object over a frame store. -/
structure ScopeState where
  store : List ScopeFrame
  functionScope : Option Nat
  blockScope : Option Nat
  parentScope : Option Nat
  deriving DecidableEq, Repr

/-- Own-property read on one frame. -/
def frameGetOwn (f : ScopeFrame) (name : String) : Option Nat :=
  (f.entries.find? (fun e => e.1 = name)).map (fun e => e.2)

/-- Prototype-chain read, as obj bracket name reads through the chain;
fuel bounds the walk, and the callers pass one more than the store size,
which suffices for the stores built here, whose prototype indices point at
earlier frames. -/
def chainLookup (store : List ScopeFrame) : Nat → Nat → String → Option Nat
  | 0, _, _ => none
  | fuel + 1, i, name =>
    match store.get? i with
    | none => none
    | some f =>
      match frameGetOwn f name with
      | some v => some v
      | none =>
        match f.proto with
        | none => none
        | some p => chainLookup store fuel p name

/-- Chain read through one of the three references. -/
def lookupRef (st : ScopeState) (r : Option Nat) (name : String) : Option Nat :=
  match r with
  | none => none
  | some i => chainLookup st.store (st.store.length + 1) i name

/-- hasOwn through a reference. -/
def hasOwnRef (st : ScopeState) (r : Option Nat) (name : String) : Bool :=
  match r with
  | none => false
  | some i =>
    match st.store.get? i with
    | some f => (frameGetOwn f name).isSome
    | none => false

/-- Own-property assignment on an entry list: replace in place, append a
new key at the end. -/
def setEntries : List (String × Nat) → String → Nat → List (String × Nat)
  | [], n, v => [(n, v)]
  | e :: r, n, v => if e.1 = n then (n, v) :: r else e :: setEntries r n v

/-- Own-property assignment through a frame index; a dangling index
leaves the store unchanged. -/
def storeSet : List ScopeFrame → Nat → String → Nat → List ScopeFrame
  | [], _, _, _ => []
  | f :: r, 0, name, v => { f with entries := setEntries f.entries name v } :: r
  | f :: r, i + 1, name, v => f :: storeSet r i name v

/-- initFunctionScope: creates the function scope once and aims all three
references at it. -/
def initFunctionScope (st : ScopeState) : Bool × ScopeState :=
  if st.functionScope ≠ none then (false, st)
  else
    let i := st.store.length
    (true, { store := st.store ++ [⟨[], none⟩],
             functionScope := some i, blockScope := some i,
             parentScope := some i })

/-- initBlockScope: creates the pair of scopes when nothing exists yet, or
a fresh block scope prototyped on the parent scope when only the block
scope is missing. -/
def initBlockScope (st : ScopeState) : Bool × ScopeState :=
  if st.functionScope = none then
    let i := st.store.length
    (true, { store := st.store ++ [⟨[], none⟩, ⟨[], some i⟩],
             functionScope := some i, blockScope := some (i + 1),
             parentScope := some (i + 1) })
  else if st.blockScope = none then
    let i := st.store.length
    (true, { st with store := st.store ++ [⟨[], st.parentScope⟩],
                     blockScope := some i, parentScope := some i })
  else (false, st)

/-- addVarName: var-declared names; fatal only against a NonShadowable
binding visible through the block-scope chain, then recorded Shadowable in
the function scope. -/
def addVarName (name : String) (st : ScopeState) :
    Except (Errors × String) ScopeState :=
  let r := initFunctionScope st
  let st := r.2
  if !r.1 && st.blockScope ≠ none &&
      lookupRef st st.blockScope name = some ScopeMasks.NonShadowable then
    Except.error (Errors.DuplicateIdentifier, name)
  else
    match st.functionScope with
    | some i => Except.ok { st with store := storeSet st.store i name ScopeMasks.Shadowable }
    | none => Except.ok st

/-- addBlockName: lexical names; the restricted names are rejected first,
then, when the block scope already existed, a Shadowable binding through
the chain or any own binding of the current block is fatal, and the name
is recorded NonShadowable in the block scope. -/
def addBlockName (name : String) (st : ScopeState) :
    Except (Errors × String) ScopeState :=
  if name = "Infinity" ∨ name = "NaN" ∨ name = "undefined" then
    Except.error (Errors.DuplicateIdentifier, name)
  else
    let r := initBlockScope st
    let st := r.2
    if !r.1 && (lookupRef st st.blockScope name = some ScopeMasks.Shadowable ||
                hasOwnRef st st.blockScope name) then
      Except.error (Errors.DuplicateIdentifier, name)
    else
      match st.blockScope with
      | some i => Except.ok { st with store := storeSet st.store i name ScopeMasks.NonShadowable }
      | none => Except.ok st

/-- Code units of an ASCII string, for readable concrete sources. -/
def unitsOf (s : String) : List Nat := s.toList.map Char.toNat

/-- Flags value with every option off. -/
def Flags.none' : Flags := ⟨false, false, false, false, false, false, false, false⟩

/-- Context value with every bit off. -/
def Context.none' : Context := ⟨false, false, false, false⟩

/-- Parser state as the constructor builds it, before the first scan. -/
def initialState (src : List Nat) (fl : Flags) : ParserState :=
  { source := src, index := 0, column := 0, line := 1, flags := fl,
    tokenValue := JSVal.undef, token := 0, startPos := 0, startColumn := 0,
    startLine := 0, endPos := 0, endColumn := 0, endLine := 0, tokenRaw := [],
    tokenRegExp := none, comments := [] }

/-- Flag bit of one regex flag character, following the specification
table: g i m u y always, s only under the next option.  This is the
specification-side reading, to be compared with the loop from the
source. -/
def flagBit (next : Bool) (c : Nat) : Option Nat :=
  if c = Chars.LowerG then some RegExpFlag.Global
  else if c = Chars.LowerI then some RegExpFlag.IgnoreCase
  else if c = Chars.LowerM then some RegExpFlag.Multiline
  else if c = Chars.LowerU then some RegExpFlag.Unicode
  else if c = Chars.LowerY then some RegExpFlag.Sticky
  else if c = Chars.LowerS ∧ next = true then some RegExpFlag.DotAll
  else none

/-- Left-to-right accumulation of flag bits onto a mask; none would mark a
duplicate or a non-flag character, so a some result certifies a clean
distinct flag run. -/
def flagMask (next : Bool) : List Nat → Nat → Option Nat
  | [], m => some m
  | c :: r, m =>
    match flagBit next c with
    | some b => if m &&& b ≠ 0 then none else flagMask next r (m ||| b)
    | none => none

/-- Digit-run test for decimal literals. -/
def allDigitUnits (l : List Nat) : Bool :=
  l.all (fun d => Chars.Zero ≤ d && d ≤ Chars.Nine)

/-- Restoration relation for the speculative probes: every field listed in
SavedState agrees between the two states. -/
def restoredTo (s' s : ParserState) : Prop :=
  s'.index = s.index ∧ s'.line = s.line ∧ s'.column = s.column ∧
  s'.token = s.token ∧ s'.tokenValue = s.tokenValue ∧
  s'.tokenRaw = s.tokenRaw ∧ s'.startPos = s.startPos ∧
  s'.startLine = s.startLine ∧ s'.startColumn = s.startColumn ∧
  s'.endPos = s.endPos ∧ s'.endLine = s.endLine ∧
  s'.endColumn = s.endColumn ∧ s'.tokenRegExp = s.tokenRegExp ∧
  s'.flags = s.flags

/-! Helper lemmas about reads at an offset described by List.drop. -/

theorem charCodeAt_of_drop {src : List Nat} {i x : Nat} {xs : List Nat}
    (h : src.drop i = x :: xs) : charCodeAt src i = some x := by
  have h0 : (src.drop i)[0]? = some x := by rw [h]; simp
  rw [List.getElem?_drop] at h0
  simpa [charCodeAt, List.get?_eq_getElem?] using h0

theorem drop_append_of_drop {src : List Nat} {i : Nat} {xs rest : List Nat}
    (h : src.drop i = xs ++ rest) : src.drop (i + xs.length) = rest := by
  rw [← List.drop_drop xs.length i src, h]
  exact List.drop_left xs rest

theorem slice_of_drop {src : List Nat} {i : Nat} {xs rest : List Nat}
    (h : src.drop i = xs ++ rest) : sliceUnits src i (i + xs.length) = xs := by
  rw [sliceUnits, List.drop_take, Nat.add_sub_cancel_left, h]
  exact List.take_left xs rest

theorem length_bound_of_drop {src : List Nat} {i : Nat} {xs rest : List Nat}
    (h : src.drop i = xs ++ rest) : xs.length + rest.length + i = src.length ∨
      (xs = [] ∧ rest = [] ∧ src.length ≤ i) := by
  have hl := congrArg List.length h
  simp [List.length_drop, List.length_append] at hl
  rcases Nat.lt_or_ge i src.length with hlt | hge
  · left; omega
  · have : src.length - i = 0 := by omega
    rw [this] at hl
    right
    constructor
    · exact List.eq_nil_of_length_eq_zero (by omega)
    · exact ⟨List.eq_nil_of_length_eq_zero (by omega), hge⟩

theorem lt_length_of_charCodeAt {src : List Nat} {i x : Nat}
    (h : charCodeAt src i = some x) : i < src.length := by
  by_contra hge
  push_neg at hge
  rw [charCodeAt, List.get?_eq_getElem?, List.getElem?_eq_none (by omega)] at h
  exact absurd h (by simp)

/-- skipDigits loop over a digit run that stops at the first non-digit. -/
theorem skipDigitsLoop_run (ds : List Nat) :
    ∀ (fuel : Nat) (s : ParserState) (rest : List Nat),
      s.source.drop s.index = ds ++ rest →
      allDigitUnits ds = true →
      isDigit (charCodeAt s.source (s.index + ds.length)) = false →
      ds.length ≤ fuel →
      skipDigitsLoop fuel s =
        { s with index := s.index + ds.length,
                 column := s.column + (ds.length : Int) } := by
  induction ds with
  | nil =>
    intro fuel s rest hdrop _ hstop _
    have hres : skipDigitsLoop fuel s = s := by
      cases fuel with
      | zero => rfl
      | succ k =>
        simp only [skipDigitsLoop]
        have hdf : (cge s.nextChar Chars.Zero && cle s.nextChar Chars.Nine) = false := by
          simpa [isDigit, ParserState.nextChar] using hstop
        simp [hdf]
    rw [hres]
    ext <;> simp
  | cons d ds ih =>
    intro fuel s rest hdrop hdig hstop hfuel
    obtain ⟨k, rfl⟩ : ∃ k, fuel = k + 1 := ⟨fuel - 1, by simp at hfuel; omega⟩
    have hd : charCodeAt s.source s.index = some d := charCodeAt_of_drop hdrop
    have hdigd : Chars.Zero ≤ d ∧ d ≤ Chars.Nine := by
      simp [allDigitUnits, List.all_cons, Chars.Zero, Chars.Nine] at hdig
      exact ⟨hdig.1.1, hdig.1.2⟩
    have hlt : s.index < s.source.length := lt_length_of_charCodeAt hd
    have hdrop1 : s.source.drop (s.index + 1) = ds ++ rest := by
      have := @drop_append_of_drop _ _ [d] (ds ++ rest)
        (by simpa using hdrop)
      simpa using this
    have hstep : skipDigitsLoop (k + 1) s = skipDigitsLoop k s.advance := by
      simp only [skipDigitsLoop]
      have hnext : s.hasNext = true := by
        simp [ParserState.hasNext, hlt]
      have hdt : (cge s.nextChar Chars.Zero && cle s.nextChar Chars.Nine) = true := by
        simp [ParserState.nextChar, hd, cge, cle, hdigd.1, hdigd.2]
      simp [hnext, hdt]
    rw [hstep]
    have hrec := ih k s.advance rest
      (by simpa [ParserState.advance] using hdrop1)
      (by simp [allDigitUnits, List.all_cons] at hdig ⊢; exact hdig.2)
      (by
        have harith : s.advance.index + ds.length = s.index + (d :: ds).length := by
          simp [ParserState.advance]; omega
        rw [show s.advance.source = s.source from rfl, harith]
        exact hstop)
      (by simp at hfuel; omega)
    rw [hrec]
    ext <;> simp [ParserState.advance] <;> omega

/-- skipDigits over a digit run that stops at the first non-digit. -/
theorem skipDigits_run (s : ParserState) (ds rest : List Nat)
    (hdrop : s.source.drop s.index = ds ++ rest)
    (hdig : allDigitUnits ds = true)
    (hstop : isDigit (charCodeAt s.source (s.index + ds.length)) = false) :
    skipDigits s =
      { s with index := s.index + ds.length,
               column := s.column + (ds.length : Int) } := by
  apply skipDigitsLoop_run ds _ s rest hdrop hdig hstop
  have hl := congrArg List.length hdrop
  simp [List.length_drop, List.length_append] at hl
  omega

/-- Digit loop of scanNumberLiteral over a digit run ending at a known
non-digit unit. -/
theorem numLitLoop_run (ds : List Nat) :
    ∀ (fuel : Nat) (code : Int) (ch0 : Option Nat) (s : ParserState)
      (rest : List Nat) (c : Nat),
      s.source.drop s.index = ds ++ rest →
      allDigitUnits ds = true →
      charCodeAt s.source (s.index + ds.length) = some c →
      isDigit (some c) = false →
      ds.length < fuel →
      numLitLoop fuel code ch0 s =
        (ds.foldl (fun a d => a * 8 + ((d : Int) - Chars.Zero)) code, some c,
         { s with index := s.index + ds.length,
                  column := s.column + (ds.length : Int) }) := by
  induction ds with
  | nil =>
    intro fuel code ch0 s rest c hdrop _ hc hcnd hfuel
    obtain ⟨k, rfl⟩ : ∃ k, fuel = k + 1 := ⟨fuel - 1, by omega⟩
    have hlt : s.index < s.source.length := by
      apply lt_length_of_charCodeAt (x := c)
      simpa using hc
    simp only [numLitLoop]
    have hnext : s.hasNext = true := by simp [ParserState.hasNext, hlt]
    have hch : s.nextChar = some c := by
      simpa [ParserState.nextChar] using hc
    simp [hnext, hch, hcnd]
  | cons d ds ih =>
    intro fuel code ch0 s rest c hdrop hdig hc hcnd hfuel
    obtain ⟨k, rfl⟩ : ∃ k, fuel = k + 1 := ⟨fuel - 1, by omega⟩
    have hd : charCodeAt s.source s.index = some d := charCodeAt_of_drop hdrop
    have hdigd : Chars.Zero ≤ d ∧ d ≤ Chars.Nine := by
      simp [allDigitUnits, List.all_cons, Chars.Zero, Chars.Nine] at hdig
      exact ⟨hdig.1.1, hdig.1.2⟩
    have hlt : s.index < s.source.length := lt_length_of_charCodeAt hd
    have hdrop1 : s.source.drop (s.index + 1) = ds ++ rest := by
      have := @drop_append_of_drop _ _ [d] (ds ++ rest)
        (by simpa using hdrop)
      simpa using this
    have hstep : numLitLoop (k + 1) code ch0 s =
        numLitLoop k (code * 8 + ((d : Int) - Chars.Zero)) (some d) s.advance := by
      simp only [numLitLoop]
      have hnext : s.hasNext = true := by simp [ParserState.hasNext, hlt]
      have hch : s.nextChar = some d := by simpa [ParserState.nextChar] using hd
      have hdt : isDigit (some d) = true := by
        simp [isDigit, cge, cle, hdigd.1, hdigd.2]
      simp [hnext, hch, hdt]
    rw [hstep]
    have hrec := ih k (code * 8 + ((d : Int) - Chars.Zero)) (some d) s.advance rest c
      (by simpa [ParserState.advance] using hdrop1)
      (by simp [allDigitUnits, List.all_cons] at hdig ⊢; exact hdig.2)
      (by
        have harith : s.advance.index + ds.length = s.index + (d :: ds).length := by
          simp [ParserState.advance]; omega
        rw [show s.advance.source = s.source from rfl, harith]
        exact hc)
      hcnd
      (by simp at hfuel ⊢; omega)
    rw [hrec]
    refine congrArg₂ Prod.mk ?_ (congrArg₂ Prod.mk rfl ?_)
    · simp [List.foldl_cons]
    · ext <;> simp [ParserState.advance] <;> omega

/-- Fields restored after a rewind to a snapshot. -/
theorem rewindState_saveState (s s1 : ParserState) :
    restoredTo (rewindState s1 (saveState s)) s :=
  ⟨rfl, rfl, rfl, rfl, rfl, rfl, rfl, rfl, rfl, rfl, rfl, rfl, rfl, rfl⟩

/-- C1: consumeSemicolon succeeds exactly when the current token is a
semicolon (which is then consumed by scanning the following token), a
right brace, the end of source, or when the LineTerminator flag is set
because a line terminator preceded the current token; in every other state
it reports a fatal UnexpectedToken error at the current location and
consumes nothing. -/
theorem c1_consumeSemicolon_asi (ctx : Context) (s : ParserState) :
    (¬(s.flags.lineTerminator = true ∨ s.token = Token.Semicolon ∨
        s.token = Token.RightBrace ∨ s.token = Token.EndOfSource) →
      consumeSemicolon ctx s =
        Except.error (ScanFail.thrown
          ⟨Errors.UnexpectedToken, s.index, s.line, s.column,
           [tokenDesc s.token]⟩)) ∧
    ((s.flags.lineTerminator = true ∨ s.token = Token.RightBrace ∨
        s.token = Token.EndOfSource) → s.token ≠ Token.Semicolon →
      consumeSemicolon ctx s = Except.ok s) ∧
    (s.token = Token.Semicolon → consumeSemicolon ctx s = nextToken ctx s) := by
  refine ⟨?_, ?_, ?_⟩
  · intro h
    push_neg at h
    obtain ⟨h1, h2, h3, h4⟩ := h
    have hlt : s.flags.lineTerminator = false := by
      cases hv : s.flags.lineTerminator
      · rfl
      · exact absurd hv h1
    have hcc : canConsumeSemicolon s = false := by
      simp [canConsumeSemicolon, hlt, h2, h3, h4]
    simp [consumeSemicolon, hcc, throwAt]
  · intro h hne
    have hcc : canConsumeSemicolon s = true := by
      rcases h with h | h | h
      · simp [canConsumeSemicolon, h]
      · simp [canConsumeSemicolon, h]
      · simp [canConsumeSemicolon, h]
    simp [consumeSemicolon, hcc, hne]
  · intro h
    have hcc : canConsumeSemicolon s = true := by
      simp [canConsumeSemicolon, h]
    simp [consumeSemicolon, hcc, h, expect]

/-- Witness for C1 at concrete states: a comma is rejected with state
untouched, a right brace passes with state untouched, and a semicolon is
consumed by scanning the next token. -/
theorem c1_witness :
    consumeSemicolon Context.none'
        { initialState (unitsOf "") Flags.none' with token := Token.Comma } =
      Except.error (ScanFail.thrown
        ⟨Errors.UnexpectedToken, 0, 1, 0, [[Token.Comma]]⟩) ∧
    consumeSemicolon Context.none'
        { initialState (unitsOf "") Flags.none' with token := Token.RightBrace } =
      Except.ok { initialState (unitsOf "") Flags.none' with token := Token.RightBrace } ∧
    consumeSemicolon Context.none'
        { initialState (unitsOf ";") Flags.none' with
            index := 1, column := 1, token := Token.Semicolon } =
      nextToken Context.none'
        { initialState (unitsOf ";") Flags.none' with
            index := 1, column := 1, token := Token.Semicolon } := by
  refine ⟨?_, ?_, ?_⟩
  · exact (c1_consumeSemicolon_asi Context.none' _).1 (by decide)
  · exact (c1_consumeSemicolon_asi Context.none' _).2.1 (by decide) (by decide)
  · exact (c1_consumeSemicolon_asi Context.none' _).2.2 (by decide)

/-- C2 (amended): the expression-to-pattern walker is a no-op without
error on every node already in pattern form (Identifier,
MemberExpression, AssignmentPattern, ArrayPattern, ObjectPattern), and
applying the walker twice equals applying it once for every node except a
SpreadElement, whose reinterpretation produces a RestElement that the
walker then rejects. -/
theorem c2_reinterpret_pattern_noop (ctx : Context) (st : ParserState) :
    (∀ x : JSNode, x.isPatternForm = true →
      reinterpretExpressionAsPattern ctx st x = Except.ok x) ∧
    (∀ x y : JSNode,
      reinterpretExpressionAsPattern ctx st x = Except.ok y →
      x.typeName ≠ "SpreadElement" →
      reinterpretExpressionAsPattern ctx st y = Except.ok y) := by
  constructor
  · intro x hx
    cases x with
    | Identifier n => rfl
    | MemberExpression o p c => rfl
    | AssignmentPattern l r => rfl
    | ArrayPattern es => rfl
    | ObjectPattern ps => rfl
    | ObjectExpression ps => simp [JSNode.isPatternForm] at hx
    | ArrayExpression es => simp [JSNode.isPatternForm] at hx
    | AssignmentExpression op l r => simp [JSNode.isPatternForm] at hx
    | SpreadElement a => simp [JSNode.isPatternForm] at hx
    | RestElement a => simp [JSNode.isPatternForm] at hx
    | Other ty => simp [JSNode.isPatternForm] at hx
  · intro x y h hx
    cases x with
    | Identifier n =>
      simp only [reinterpretExpressionAsPattern, Except.ok.injEq] at h
      subst h; rfl
    | MemberExpression o p c =>
      simp only [reinterpretExpressionAsPattern, Except.ok.injEq] at h
      subst h; rfl
    | AssignmentPattern l r =>
      simp only [reinterpretExpressionAsPattern, Except.ok.injEq] at h
      subst h; rfl
    | ArrayPattern es =>
      simp only [reinterpretExpressionAsPattern, Except.ok.injEq] at h
      subst h; rfl
    | ObjectPattern ps =>
      simp only [reinterpretExpressionAsPattern, Except.ok.injEq] at h
      subst h; rfl
    | ObjectExpression ps =>
      simp only [reinterpretExpressionAsPattern] at h
      cases hp : reinterpretProps ctx st ps with
      | error e => rw [hp] at h; exact absurd h (by simp)
      | ok ps' =>
        rw [hp] at h
        simp only [Except.ok.injEq] at h
        subst h; rfl
    | ArrayExpression es =>
      simp only [reinterpretExpressionAsPattern] at h
      cases hp : reinterpretElems ctx st es with
      | error e => rw [hp] at h; exact absurd h (by simp)
      | ok es' =>
        rw [hp] at h
        simp only [Except.ok.injEq] at h
        subst h; rfl
    | AssignmentExpression op l r =>
      simp only [reinterpretExpressionAsPattern] at h
      by_cases hop : op ≠ "="
      · rw [if_pos hop] at h
        simp [throwAt] at h
      · rw [if_neg hop] at h
        cases hl : reinterpretExpressionAsPattern ctx st l with
        | error e => rw [hl] at h; exact absurd h (by simp)
        | ok l' =>
          rw [hl] at h
          simp only [Except.ok.injEq] at h
          subst h; rfl
    | SpreadElement a => simp [JSNode.typeName] at hx
    | RestElement a =>
      simp only [reinterpretExpressionAsPattern] at h
      simp [throwAt] at h
    | Other ty =>
      simp only [reinterpretExpressionAsPattern] at h
      simp [throwAt] at h

/-- Counterexample to C2 as stated: reinterpreting a SpreadElement over an
identifier succeeds and produces a RestElement, and reinterpreting that
result is a fatal UnexpectedToken error, so applying the walker twice does
not equal applying it once. -/
theorem c2_counterexample :
    reinterpretExpressionAsPattern Context.none' (initialState [] Flags.none')
        (JSNode.SpreadElement (JSNode.Identifier "a")) =
      Except.ok (JSNode.RestElement (JSNode.Identifier "a")) ∧
    reinterpretExpressionAsPattern Context.none' (initialState [] Flags.none')
        (JSNode.RestElement (JSNode.Identifier "a")) =
      Except.error (ScanFail.thrown
        ⟨Errors.UnexpectedToken, 0, 1, 0, [[Token.EndOfSource]]⟩) :=
  ⟨rfl, rfl⟩

/-- Witness for C2 at concrete nodes: an ObjectPattern is left unchanged,
and reinterpreting an ObjectExpression twice equals reinterpreting it
once. -/
theorem c2_witness :
    reinterpretExpressionAsPattern Context.none' (initialState [] Flags.none')
        (JSNode.ObjectPattern [JSProp.property "init" (JSNode.Identifier "k")
          (JSNode.Identifier "v")]) =
      Except.ok (JSNode.ObjectPattern [JSProp.property "init"
        (JSNode.Identifier "k") (JSNode.Identifier "v")]) ∧
    reinterpretExpressionAsPattern Context.none' (initialState [] Flags.none')
        (JSNode.ObjectPattern [JSProp.property "init" (JSNode.Identifier "k")
          (JSNode.Identifier "v")]) =
      Except.ok (JSNode.ObjectPattern [JSProp.property "init"
        (JSNode.Identifier "k") (JSNode.Identifier "v")]) := by
  constructor
  · exact (c2_reinterpret_pattern_noop Context.none' _).1 _ (by
      simp [JSNode.isPatternForm])
  · exact (c2_reinterpret_pattern_noop Context.none' _).2
      (JSNode.ObjectExpression [JSProp.property "init" (JSNode.Identifier "k")
        (JSNode.Identifier "v")]) _ rfl (by simp [JSNode.typeName])

/-- C9: each speculative probe (nextTokenIsLeftParen, isLexical,
nextTokenIsFunctionKeyword) snapshots the state before scanning and
restores it on return, so every field of the snapshot — index, line,
column, token, tokenValue, tokenRaw, start and end positions, tokenRegExp
and flags — equals its value before the probe; the probes return only a
Boolean next to the state, so no AST node is constructed. -/
theorem c9_probe_restoration (ctx : Context) (s : ParserState) :
    (∀ (b : Bool) (s' : ParserState),
      nextTokenIsLeftParen ctx s = Except.ok (b, s') → restoredTo s' s) ∧
    (∀ (b : Bool) (s' : ParserState),
      isLexical ctx s = Except.ok (b, s') → restoredTo s' s) ∧
    (∀ (b : Bool) (s' : ParserState),
      nextTokenIsFunctionKeyword ctx s = Except.ok (b, s') → restoredTo s' s) := by
  refine ⟨?_, ?_, ?_⟩
  · intro b s' h
    simp only [nextTokenIsLeftParen] at h
    cases hnt : nextToken ctx s with
    | error e => rw [hnt] at h; exact absurd h (by simp)
    | ok s1 =>
      rw [hnt] at h
      simp only [Except.ok.injEq, Prod.mk.injEq] at h
      obtain ⟨-, hs⟩ := h
      subst hs
      exact rewindState_saveState s s1
  · intro b s' h
    simp only [isLexical] at h
    cases hnt : nextToken ctx s with
    | error e => rw [hnt] at h; exact absurd h (by simp)
    | ok s1 =>
      rw [hnt] at h
      simp only [Except.ok.injEq, Prod.mk.injEq] at h
      obtain ⟨-, hs⟩ := h
      subst hs
      exact rewindState_saveState s s1
  · intro b s' h
    simp only [nextTokenIsFunctionKeyword] at h
    cases hnt : nextToken ctx s with
    | error e => rw [hnt] at h; exact absurd h (by simp)
    | ok s1 =>
      rw [hnt] at h
      simp only [Except.ok.injEq, Prod.mk.injEq] at h
      obtain ⟨-, hs⟩ := h
      subst hs
      exact rewindState_saveState s s1

/-- Witness for C9: all three probes on a one-parenthesis source return
with the state restored. -/
theorem c9_witness :
    restoredTo (initialState (unitsOf "(") Flags.none')
      (initialState (unitsOf "(") Flags.none') ∧
    (nextTokenIsLeftParen Context.none' (initialState (unitsOf "(") Flags.none') =
      Except.ok (true, initialState (unitsOf "(") Flags.none')) ∧
    (isLexical Context.none' (initialState (unitsOf "(") Flags.none') =
      Except.ok (false, initialState (unitsOf "(") Flags.none')) ∧
    (nextTokenIsFunctionKeyword Context.none' (initialState (unitsOf "(") Flags.none') =
      Except.ok (false, initialState (unitsOf "(") Flags.none')) :=
  ⟨(c9_probe_restoration Context.none' (initialState (unitsOf "(") Flags.none')).1
      true (initialState (unitsOf "(") Flags.none') rfl,
   rfl, rfl, rfl⟩

/-- One unfolding of the scan loop at a hash that is not a shebang: the
case falls through into the left-brace case and yields a LeftBrace
token. -/
theorem scanTokenLoop_hash (fuel : Nat) (ctx : Context) (s : ParserState)
    (h : s.nextChar = some Chars.Hash)
    (hns : ¬(s.index = 0 ∧
      ceq (charCodeAt s.source (s.index + 1)) Chars.Exclamation = true)) :
    scanTokenLoop (fuel + 1) ctx s =
      Except.ok (Token.LeftBrace,
        ParserState.advance
          { s with startPos := s.index, startColumn := s.column,
                   startLine := s.line }) := by
  have hcond : ((decide (s.index = 0)) &&
      ceq (charCodeAt s.source (s.index + 1)) Chars.Exclamation) = false := by
    by_cases hc : ceq (charCodeAt s.source (s.index + 1)) Chars.Exclamation = true
    · have hne : ¬ s.index = 0 := fun h0 => hns ⟨h0, hc⟩
      simp [hne]
    · simp only [Bool.not_eq_true] at hc
      simp [hc]
  simp only [scanTokenLoop, h]
  norm_num [Chars.Hash, Chars.CarriageReturn, Chars.LineFeed, Chars.LineSeparator,
    Chars.ParagraphSeparator, isWhiteSpaceUnit, Chars.Tab, Chars.VerticalTab,
    Chars.FormFeed, Chars.Space, Chars.NonBreakingSpace, Chars.Ogham, Chars.EnQuad,
    Chars.EmQuad, Chars.EnSpace, Chars.EmSpace, Chars.ThreePerEmSpace,
    Chars.FourPerEmSpace, Chars.SixPerEmSpace, Chars.FigureSpace,
    Chars.PunctuationSpace, Chars.ThinSpace, Chars.HairSpace,
    Chars.NarrowNoBreakSpace, Chars.MathematicalSpace, Chars.IdeographicSpace,
    Chars.ZeroWidthNoBreakSpace, Chars.Slash, Chars.LessThan, Chars.Hyphen, hcond]

/-- C6: the claim holds for the shebang half — a hash-bang at file index 0
is skipped silently, with nothing collected — but the code contradicts the
error half: scanning a hash anywhere else, or a hash at index 0 not
followed by an exclamation mark, falls through into the left-brace case
and produces a LeftBrace token instead of reporting a fatal Unexpected
error. -/
theorem c6_hash_fallthrough :
    (∀ (ctx : Context) (s : ParserState),
      s.nextChar = some Chars.Hash →
      ¬(s.index = 0 ∧
        ceq (charCodeAt s.source (s.index + 1)) Chars.Exclamation = true) →
      (scanToken ctx s).map Prod.fst = Except.ok Token.LeftBrace) ∧
    (scanToken Context.none' (initialState (unitsOf "#!x y") Flags.none')).map
        (fun r => (r.1, r.2.comments)) = Except.ok (Token.EndOfSource, []) ∧
    (scanToken Context.none'
        { initialState (unitsOf ";#") Flags.none' with index := 1, column := 1 }).map
        Prod.fst = Except.ok Token.LeftBrace := by
  refine ⟨?_, rfl, rfl⟩
  intro ctx s h hns
  have hlt : s.index < s.source.length := lt_length_of_charCodeAt h
  obtain ⟨k, hk⟩ : ∃ k, s.source.length + 1 - s.index = k + 1 :=
    ⟨s.source.length - s.index, by omega⟩
  change (Except.map Prod.fst (scanTokenLoop (s.source.length + 1 - s.index) ctx
    { s with flags := { s.flags with lineTerminator := false },
             endPos := s.index, endColumn := s.column, endLine := s.line })) =
    Except.ok Token.LeftBrace
  rw [hk, scanTokenLoop_hash k ctx
    { s with flags := { s.flags with lineTerminator := false },
             endPos := s.index, endColumn := s.column, endLine := s.line } h hns]
  rfl

/-- Witness for C6: the general fall-through conjunct applied at the
concrete hash after a semicolon. -/
theorem c6_witness :
    (scanToken Context.none'
        { initialState (unitsOf ";#") Flags.none' with index := 1, column := 1 }).map
        Prod.fst = Except.ok Token.LeftBrace :=
  c6_hash_fallthrough.1 Context.none'
    { initialState (unitsOf ";#") Flags.none' with index := 1, column := 1 }
    rfl (by decide)

/-- Counterexample to C4 as stated: in strict context the escape backslash
zero followed by a quote is not fatal; it scans to the NUL cooked unit. -/
theorem c4_counterexample :
    scanStringEscape { Context.none' with strict := true }
        { initialState (unitsOf "'\\0'") Flags.none' with index := 1, column := 1 } =
      Except.ok ([0],
        { initialState (unitsOf "'\\0'") Flags.none' with index := 2, column := 2 }) :=
  rfl

/-- Counterexample to C5 as stated: under the next option, a trailing n on
the legacy octal literal 07 is not fatal (scanNumberLiteral returns a
BigIntLiteral token), and a trailing n on the exponent literal 1e5 is not
fatal either: scanNumber returns a NumericLiteral with raw 1e5, leaving
the n at the cursor (index 3) for the next token. -/
theorem c5_counterexample :
    (scanNumberLiteral Context.none'
        (initialState (unitsOf "07n") { Flags.none' with optionsNext := true })).map
        Prod.fst = Except.ok Token.BigIntLiteral ∧
    (scanNumber Context.none' (some 49)
        (initialState (unitsOf "1e5n")
          { Flags.none' with optionsNext := true, optionsRaw := true })).map
        (fun r => (r.1, r.2.tokenRaw, r.2.index)) =
      Except.ok (Token.NumericLiteral, unitsOf "1e5", 3) :=
  ⟨rfl, rfl⟩

/-- Counterexample to C7 as stated: with the raw option on, scanning the
BigInt literal 123n records the raw slice 123 without the n suffix, so the
recorded raw does not equal the exact source characters of the literal. -/
theorem c7_counterexample :
    (scanNumber Context.none' (some Chars.One)
        (initialState (unitsOf "123n")
          { Flags.none' with optionsNext := true, optionsRaw := true })).map
        (fun r => (r.1, r.2.tokenRaw)) =
      Except.ok (Token.BigIntLiteral, unitsOf "123") ∧
    unitsOf "123" ≠ unitsOf "123n" :=
  ⟨rfl, by decide⟩

/-! Lemmas about the scope store. -/

theorem frameGetOwn_setEntries_self (l : List (String × Nat)) (n : String)
    (v : Nat) (p : Option Nat) :
    frameGetOwn ⟨setEntries l n v, p⟩ n = some v := by
  induction l with
  | nil => simp [setEntries, frameGetOwn, List.find?]
  | cons e l ih =>
    by_cases he : e.1 = n
    · simp [setEntries, he, frameGetOwn, List.find?]
    · simpa [setEntries, he, frameGetOwn, List.find?] using ih

theorem setEntries_idem (l : List (String × Nat)) (n : String) (v : Nat) :
    setEntries (setEntries l n v) n v = setEntries l n v := by
  induction l with
  | nil => simp [setEntries]
  | cons e l ih =>
    by_cases he : e.1 = n
    · simp [setEntries, he]
    · simp [setEntries, he, ih]

theorem storeSet_length (store : List ScopeFrame) (i : Nat) (n : String) (v : Nat) :
    (storeSet store i n v).length = store.length := by
  induction store generalizing i with
  | nil => rfl
  | cons f r ih =>
    cases i with
    | zero => simp [storeSet]
    | succ j => simp [storeSet, ih]

theorem storeSet_idem (store : List ScopeFrame) (i : Nat) (n : String) (v : Nat) :
    storeSet (storeSet store i n v) i n v = storeSet store i n v := by
  induction store generalizing i with
  | nil => rfl
  | cons f r ih =>
    cases i with
    | zero => simp [storeSet, setEntries_idem]
    | succ j => simp [storeSet, ih]

theorem storeSet_get? (store : List ScopeFrame) (i : Nat) (n : String) (v : Nat)
    (j : Nat) :
    (storeSet store i n v).get? j =
      if j = i then
        (store.get? i).map (fun f => { f with entries := setEntries f.entries n v })
      else store.get? j := by
  induction store generalizing i j with
  | nil => simp [storeSet]
  | cons f r ih =>
    cases i with
    | zero =>
      cases j with
      | zero => simp [storeSet]
      | succ j' => simp [storeSet]
    | succ i' =>
      cases j with
      | zero => simp [storeSet]
      | succ j' => simpa [storeSet] using ih i' j'

theorem chainLookup_storeSet (store : List ScopeFrame) (i : Nat) (n : String)
    (v : Nat) :
    ∀ (fuel k : Nat),
      chainLookup (storeSet store i n v) fuel k n = some v ∨
      chainLookup (storeSet store i n v) fuel k n = chainLookup store fuel k n := by
  intro fuel
  induction fuel with
  | zero => intro k; right; rfl
  | succ fu ih =>
    intro k
    by_cases hk : k = i
    · subst hk
      cases h0 : store.get? k with
      | none =>
        right
        simp only [chainLookup]
        rw [storeSet_get? store k n v k]
        rw [List.get?_eq_getElem?] at h0
        simp [h0]
      | some f =>
        left
        simp only [chainLookup]
        rw [storeSet_get? store k n v k]
        rw [List.get?_eq_getElem?] at h0
        simp [h0, frameGetOwn_setEntries_self]
    · cases h0 : store.get? k with
      | none =>
        right
        simp only [chainLookup]
        rw [storeSet_get? store i n v k, if_neg hk]
        rw [List.get?_eq_getElem?] at h0
        simp [h0]
      | some f =>
        cases hown : frameGetOwn f n with
        | some w =>
          right
          simp only [chainLookup]
          rw [storeSet_get? store i n v k, if_neg hk]
          rw [List.get?_eq_getElem?] at h0
          simp [h0, hown]
        | none =>
          cases hp : f.proto with
          | none =>
            right
            simp only [chainLookup]
            rw [storeSet_get? store i n v k, if_neg hk]
            rw [List.get?_eq_getElem?] at h0
            simp [h0, hown, hp]
          | some p =>
            have hL : chainLookup (storeSet store i n v) (fu + 1) k n =
                chainLookup (storeSet store i n v) fu p n := by
              simp only [chainLookup]
              rw [storeSet_get? store i n v k, if_neg hk]
              rw [List.get?_eq_getElem?] at h0
              simp [h0, hown, hp]
            have hR : chainLookup store (fu + 1) k n = chainLookup store fu p n := by
              simp only [chainLookup]
              rw [List.get?_eq_getElem?] at h0
              simp [h0, hown, hp]
            rw [hL, hR]
            exact ih p

/-- Counterexample to C8 as stated: with a var-declared Shadowable binding
of x in the function scope but the block scope not yet materialised — the
state parseBlockStatement leaves on block entry — addBlockName accepts x
without error, although the name shadows a var-declared name of the same
function. -/
theorem c8_counterexample :
    frameGetOwn ⟨[("x", ScopeMasks.Shadowable)], none⟩ "x" =
      some ScopeMasks.Shadowable ∧
    addBlockName "x"
        ⟨[⟨[("x", ScopeMasks.Shadowable)], none⟩], some 0, none, some 0⟩ =
      Except.ok
        ⟨[⟨[("x", ScopeMasks.Shadowable)], none⟩,
          ⟨[("x", ScopeMasks.NonShadowable)], some 0⟩], some 0, some 1, some 1⟩ :=
  ⟨rfl, rfl⟩

/-- Chain lookup through a state whose store had one own binding set:
either the lookup now sees that value, or it is unchanged. -/
theorem lookupRef_storeSet (st : ScopeState) (i : Nat) (name : String) (v : Nat)
    (r : Option Nat) :
    lookupRef { st with store := storeSet st.store i name v } r name = some v ∨
    lookupRef { st with store := storeSet st.store i name v } r name =
      lookupRef st r name := by
  cases r with
  | none => right; rfl
  | some k =>
    simp only [lookupRef]
    rw [storeSet_length]
    exact chainLookup_storeSet st.store i name v (st.store.length + 1) k

/-- lookupRef reads only the store component. -/
theorem lookupRef_store_only (A : List ScopeFrame)
    (f1 b1 p1 f2 b2 p2 : Option Nat) (r : Option Nat) (n : String) :
    lookupRef ⟨A, f1, b1, p1⟩ r n = lookupRef ⟨A, f2, b2, p2⟩ r n := by
  cases r <;> rfl

/-- C8 (amended): addBlockName rejects Infinity, NaN and undefined
unconditionally; when both the function scope and the block scope already
exist it reports DuplicateIdentifier exactly when the name resolves
Shadowable through the block-scope chain (a var-declared name) or is
already bound in the current block, and otherwise records the name
NonShadowable in the block scope; but when this very call creates the
block scope — the state left after entering a block — the duplicate and
shadowing checks are skipped and the name is recorded without error. -/
theorem c8_addBlockName_characterisation (name : String) (st : ScopeState) :
    ((name = "Infinity" ∨ name = "NaN" ∨ name = "undefined") →
      addBlockName name st = Except.error (Errors.DuplicateIdentifier, name)) ∧
    (¬(name = "Infinity" ∨ name = "NaN" ∨ name = "undefined") →
      ∀ i j, st.functionScope = some i → st.blockScope = some j →
      ((lookupRef st st.blockScope name = some ScopeMasks.Shadowable ∨
          hasOwnRef st st.blockScope name = true) →
        addBlockName name st = Except.error (Errors.DuplicateIdentifier, name)) ∧
      (lookupRef st st.blockScope name ≠ some ScopeMasks.Shadowable →
        hasOwnRef st st.blockScope name = false →
        addBlockName name st =
          Except.ok { st with
            store := storeSet st.store j name ScopeMasks.NonShadowable })) ∧
    (¬(name = "Infinity" ∨ name = "NaN" ∨ name = "undefined") →
      (st.functionScope = none ∨ st.blockScope = none) →
      ∃ st', addBlockName name st = Except.ok st') := by
  refine ⟨?_, ?_, ?_⟩
  · intro h
    simp [addBlockName, h]
  · intro hsp i j hfs hbs
    have hr : initBlockScope st = (false, st) := by
      simp [initBlockScope, hfs, hbs]
    constructor
    · intro hdup
      rcases hdup with hdup | hdup
      · simp [addBlockName, hsp, hr, hdup]
      · simp [addBlockName, hsp, hr, hdup]
    · intro hl ho
      rw [hbs] at hl ho
      simp [addBlockName, hsp, hr, hl, ho, hbs]
  · intro hsp hnone
    cases hfs : st.functionScope with
    | none =>
      refine ⟨⟨storeSet (st.store ++ [⟨[], none⟩, ⟨[], some st.store.length⟩])
                 (st.store.length + 1) name ScopeMasks.NonShadowable,
               some st.store.length, some (st.store.length + 1),
               some (st.store.length + 1)⟩, ?_⟩
      simp [addBlockName, hsp, initBlockScope, hfs]
    | some i =>
      rcases hnone with hfs' | hbs
      · rw [hfs] at hfs'; exact absurd hfs' (by simp)
      · refine ⟨⟨storeSet (st.store ++ [⟨[], st.parentScope⟩]) st.store.length
                   name ScopeMasks.NonShadowable,
                 st.functionScope, some st.store.length,
                 some st.store.length⟩, ?_⟩
        simp [addBlockName, hsp, initBlockScope, hfs, hbs]

/-- Witness for C8: the restricted name NaN is rejected in an empty
state; with function and block scope present, a var-shadowing name is
rejected, and a fresh name is recorded NonShadowable. -/
theorem c8_witness :
    addBlockName "NaN" ⟨[], none, none, none⟩ =
      Except.error (Errors.DuplicateIdentifier, "NaN") ∧
    addBlockName "x"
        ⟨[⟨[("x", ScopeMasks.Shadowable)], none⟩, ⟨[], some 0⟩],
         some 0, some 1, some 1⟩ =
      Except.error (Errors.DuplicateIdentifier, "x") ∧
    addBlockName "y"
        ⟨[⟨[("x", ScopeMasks.Shadowable)], none⟩, ⟨[], some 0⟩],
         some 0, some 1, some 1⟩ =
      Except.ok
        ⟨[⟨[("x", ScopeMasks.Shadowable)], none⟩,
          ⟨[("y", ScopeMasks.NonShadowable)], some 0⟩],
         some 0, some 1, some 1⟩ := by
  refine ⟨?_, ?_, ?_⟩
  · exact (c8_addBlockName_characterisation "NaN" _).1 (by decide)
  · exact ((c8_addBlockName_characterisation "x" _).2.1 (by decide) 0 1 rfl rfl).1
      (by left; decide)
  · exact ((c8_addBlockName_characterisation "y" _).2.1 (by decide) 0 1 rfl rfl).2
      (by decide) (by decide)

/-- C10: addVarName reports DuplicateIdentifier only when the name is
bound NonShadowable through the enclosing block-scope chain; otherwise —
in particular when the name is already a Shadowable var binding — it
silently records the name Shadowable in the function scope, and repeating
a var declaration of the same name never reports an error and leaves the
state unchanged. -/
theorem c10_addVarName_duplicates (name : String) (st : ScopeState) :
    (∀ e, addVarName name st = Except.error e →
      st.functionScope ≠ none ∧ st.blockScope ≠ none ∧
      lookupRef st st.blockScope name = some ScopeMasks.NonShadowable ∧
      e = (Errors.DuplicateIdentifier, name)) ∧
    ((st.functionScope ≠ none → st.blockScope ≠ none →
        lookupRef st st.blockScope name ≠ some ScopeMasks.NonShadowable) →
      (∀ i, st.functionScope = some i → i < st.store.length) →
      ∃ st', addVarName name st = Except.ok st' ∧
        ∃ i f, st'.functionScope = some i ∧ st'.store.get? i = some f ∧
          frameGetOwn f name = some ScopeMasks.Shadowable) ∧
    (∀ st', addVarName name st = Except.ok st' →
      addVarName name st' = Except.ok st') := by
  refine ⟨?_, ?_, ?_⟩
  · intro e he
    cases hfs : st.functionScope with
    | none => simp [addVarName, initFunctionScope, hfs] at he
    | some i =>
      by_cases hb1 : st.blockScope = none
      · simp [addVarName, initFunctionScope, hfs, hb1] at he
      · by_cases hb2 : lookupRef st st.blockScope name = some ScopeMasks.NonShadowable
        · refine ⟨by simp [hfs], hb1, hb2, ?_⟩
          simp [addVarName, initFunctionScope, hfs, hb1, hb2] at he
          exact he.symm
        · simp [addVarName, initFunctionScope, hfs, hb1, hb2] at he
  · intro hguard hwf
    cases hfs : st.functionScope with
    | none =>
      refine ⟨⟨storeSet (st.store ++ [⟨[], none⟩]) st.store.length name
                 ScopeMasks.Shadowable,
               some st.store.length, some st.store.length,
               some st.store.length⟩, ?_,
        st.store.length, ⟨setEntries [] name ScopeMasks.Shadowable, none⟩, rfl, ?_, ?_⟩
      · simp [addVarName, initFunctionScope, hfs]
      · show (storeSet (st.store ++ [⟨[], none⟩]) st.store.length name
          ScopeMasks.Shadowable).get? st.store.length = _
        rw [storeSet_get?]
        simp
      · exact frameGetOwn_setEntries_self [] name ScopeMasks.Shadowable none
    | some i =>
      have hlt : i < st.store.length := hwf i hfs
      have hf0 : ∃ f0, st.store.get? i = some f0 := by
        rw [List.get?_eq_getElem?]
        exact ⟨st.store[i], List.getElem?_eq_getElem hlt⟩
      obtain ⟨f0, hf0⟩ := hf0
      have hmk : ∀ hok : addVarName name st =
          Except.ok { st with store := storeSet st.store i name ScopeMasks.Shadowable },
          ∃ st', addVarName name st = Except.ok st' ∧
          ∃ k f, st'.functionScope = some k ∧ st'.store.get? k = some f ∧
            frameGetOwn f name = some ScopeMasks.Shadowable := by
        intro hok
        refine ⟨_, hok, i, { f0 with entries := setEntries f0.entries name ScopeMasks.Shadowable },
          hfs, ?_, frameGetOwn_setEntries_self f0.entries name ScopeMasks.Shadowable f0.proto⟩
        show (storeSet st.store i name ScopeMasks.Shadowable).get? i = _
        rw [storeSet_get?]
        rw [List.get?_eq_getElem?] at hf0
        simp [hf0]
      by_cases hb1 : st.blockScope = none
      · exact hmk (by simp [addVarName, initFunctionScope, hfs, hb1])
      · have hb2 : lookupRef st st.blockScope name ≠ some ScopeMasks.NonShadowable :=
          hguard (by simp [hfs]) hb1
        exact hmk (by simp [addVarName, initFunctionScope, hfs, hb1, hb2])
  · intro st' h
    cases hfs : st.functionScope with
    | none =>
      have hst' : st' =
          { store := storeSet (st.store ++ [⟨[], none⟩]) st.store.length name
              ScopeMasks.Shadowable,
            functionScope := some st.store.length,
            blockScope := some st.store.length,
            parentScope := some st.store.length } := by
        simp [addVarName, initFunctionScope, hfs] at h
        exact h.symm
      subst hst'
      have hlook : lookupRef
          { store := storeSet (st.store ++ [⟨[], none⟩]) st.store.length name
              ScopeMasks.Shadowable,
            functionScope := some st.store.length,
            blockScope := some st.store.length,
            parentScope := some st.store.length : ScopeState }
          (some st.store.length) name = some ScopeMasks.Shadowable := by
        show chainLookup (storeSet (st.store ++ [⟨[], none⟩]) st.store.length name
            ScopeMasks.Shadowable)
          ((storeSet (st.store ++ [⟨[], none⟩]) st.store.length name
            ScopeMasks.Shadowable).length + 1) st.store.length name = _
        rw [storeSet_length, List.length_append]
        simp only [List.length_singleton]
        simp only [chainLookup]
        rw [storeSet_get?]
        simp [frameGetOwn_setEntries_self]
      have hne : lookupRef
          { store := storeSet (st.store ++ [⟨[], none⟩]) st.store.length name
              ScopeMasks.Shadowable,
            functionScope := some st.store.length,
            blockScope := some st.store.length,
            parentScope := some st.store.length : ScopeState }
          (some st.store.length) name ≠ some ScopeMasks.NonShadowable := by
        rw [hlook]; simp [ScopeMasks.Shadowable, ScopeMasks.NonShadowable]
      simp [addVarName, initFunctionScope, hne, storeSet_idem]
    | some i =>
      by_cases hb1 : st.blockScope = none
      · have hst' : st' =
            ⟨storeSet st.store i name ScopeMasks.Shadowable, some i, none,
             st.parentScope⟩ := by
          simp [addVarName, initFunctionScope, hfs, hb1] at h
          exact h.symm
        subst hst'
        simp [addVarName, initFunctionScope, storeSet_idem]
      · by_cases hb2 : lookupRef st st.blockScope name = some ScopeMasks.NonShadowable
        · exfalso
          simp [addVarName, initFunctionScope, hfs, hb1, hb2] at h
        · have hst' : st' =
              ⟨storeSet st.store i name ScopeMasks.Shadowable, some i,
               st.blockScope, st.parentScope⟩ := by
            simp [addVarName, initFunctionScope, hfs, hb1, hb2] at h
            exact h.symm
          subst hst'
          have hne : lookupRef
              (⟨storeSet st.store i name ScopeMasks.Shadowable, some i,
                st.blockScope, st.parentScope⟩ : ScopeState)
              st.blockScope name ≠ some ScopeMasks.NonShadowable := by
            rw [lookupRef_store_only _ _ _ _ st.functionScope st.blockScope
              st.parentScope]
            rcases lookupRef_storeSet st i name ScopeMasks.Shadowable st.blockScope with hv | he
            · rw [hv]; simp [ScopeMasks.Shadowable, ScopeMasks.NonShadowable]
            · rw [he]; exact hb2
          simp [addVarName, initFunctionScope, hb1, hne, storeSet_idem]

/-- Digit units fail every named-escape comparison at the top of
scanStringEscape. -/
theorem ceq_digit_not_escape {c : Nat} (h0 : Chars.Zero ≤ c) (h9 : c ≤ Chars.Nine) :
    ceq (some c) Chars.LowerB = false ∧ ceq (some c) Chars.LowerT = false ∧
    ceq (some c) Chars.LowerN = false ∧ ceq (some c) Chars.LowerV = false ∧
    ceq (some c) Chars.LowerF = false ∧ ceq (some c) Chars.LowerR = false ∧
    ceq (some c) Chars.Backslash = false ∧ ceq (some c) Chars.SingleQuote = false ∧
    ceq (some c) Chars.DoubleQuote = false ∧ ceq (some c) Chars.LowerU = false ∧
    ceq (some c) Chars.LowerX = false := by
  refine ⟨?_, ?_, ?_, ?_, ?_, ?_, ?_, ?_, ?_, ?_, ?_⟩ <;>
    · simp only [ceq, beq_eq_false_iff_ne, ne_eq, Option.some.injEq,
        Chars.LowerB, Chars.LowerT, Chars.LowerN, Chars.LowerV, Chars.LowerF,
        Chars.LowerR, Chars.Backslash, Chars.SingleQuote, Chars.DoubleQuote,
        Chars.LowerU, Chars.LowerX]
      simp only [Chars.Zero, Chars.Nine] at h0 h9
      omega

/-- C4 (amended): in a string literal, the legacy octal escapes backslash-1
through backslash-7 are fatal in strict context whenever a following unit
exists; backslash-0 is fatal in strict context exactly when it is followed
by an octal digit, and otherwise scans to NUL without error; the escapes
backslash-8 and backslash-9 are fatal in every mode. -/
theorem c4_stringEscape_octal (ctx : Context) (s : ParserState) :
    (∀ c, ctx.strict = true → charCodeAt s.source (s.index + 1) = some c →
      Chars.Four ≤ c → c ≤ Chars.Seven →
      scanStringEscape ctx s = Except.error (ScanFail.thrown
        ⟨Errors.StrictOctalEscape, s.index + 1, s.line, s.column + 1, []⟩)) ∧
    (∀ c, ctx.strict = true → charCodeAt s.source (s.index + 1) = some c →
      Chars.One ≤ c → c ≤ Chars.Three → s.index + 2 < s.source.length →
      scanStringEscape ctx s = Except.error (ScanFail.thrown
        ⟨Errors.StrictOctalLiteral, s.index + 1, s.line, s.column + 1, []⟩)) ∧
    (ctx.strict = true → charCodeAt s.source (s.index + 1) = some Chars.Zero →
      s.index + 2 < s.source.length →
      ((cge (charCodeAt s.source (s.index + 2)) Chars.Zero &&
          cle (charCodeAt s.source (s.index + 2)) Chars.Seven) = true →
        scanStringEscape ctx s = Except.error (ScanFail.thrown
          ⟨Errors.StrictOctalLiteral, s.index + 1, s.line, s.column + 1, []⟩)) ∧
      ((cge (charCodeAt s.source (s.index + 2)) Chars.Zero &&
          cle (charCodeAt s.source (s.index + 2)) Chars.Seven) = false →
        scanStringEscape ctx s = Except.ok ([0], s.advance))) ∧
    (∀ c, charCodeAt s.source (s.index + 1) = some c →
      (c = Chars.Eight ∨ c = Chars.Nine) →
      scanStringEscape ctx s = Except.error (ScanFail.thrown
        ⟨Errors.InvalidEightAndNine, s.index + 1, s.line, s.column + 1, []⟩)) := by
  refine ⟨?_, ?_, ?_, ?_⟩
  · intro c hstrict hc h4 h7
    obtain ⟨eB, eT, eN, eV, eF, eR, eBS, eSQ, eDQ, eU, eX⟩ :=
      ceq_digit_not_escape (c := c) (by simp [Chars.Zero, Chars.Four] at h4 ⊢; omega)
        (by simp [Chars.Nine, Chars.Seven] at h7 ⊢; omega)
    have h03 : (cge (some c) Chars.Zero && cle (some c) Chars.Three) = false := by
      simp only [cge, cle, Chars.Zero, Chars.Three, Bool.and_eq_false_iff,
        decide_eq_false_iff_not]
      simp only [Chars.Four] at h4
      right; omega
    have h47 : (cge (some c) Chars.Four && cle (some c) Chars.Seven) = true := by
      simp [cge, cle, h4, h7]
    simp [scanStringEscape, ParserState.nextChar, ParserState.advance, hc, eB,
      eT, eN, eV, eF, eR, eBS, eSQ, eDQ, eU, eX, h03, h47, hstrict, throwAt]
  · intro c hstrict hc h1 h3 hlen
    obtain ⟨eB, eT, eN, eV, eF, eR, eBS, eSQ, eDQ, eU, eX⟩ :=
      ceq_digit_not_escape (c := c) (by simp [Chars.Zero, Chars.One] at h1 ⊢; omega)
        (by simp [Chars.Nine, Chars.Three] at h3 ⊢; omega)
    have h03 : (cge (some c) Chars.Zero && cle (some c) Chars.Three) = true := by
      simp only [cge, cle, Chars.Zero, Chars.Three, Bool.and_eq_true,
        decide_eq_true_eq]
      simp only [Chars.One] at h1
      simp only [Chars.Three] at h3
      omega
    obtain ⟨d, hd⟩ : ∃ d, charCodeAt s.source (s.index + 2) = some d := by
      rw [charCodeAt, List.get?_eq_getElem?]
      exact ⟨_, List.getElem?_eq_getElem hlen⟩
    have hd2 : charCodeAt s.source (s.index + 1 + 1) = some d := hd
    have hlen2 : s.index + 1 + 1 < s.source.length := hlen
    have hcode : ¬(c - Chars.Zero = 0 ∧ ctx.strict = true) ∨
        (c - Chars.Zero ≠ 0) := by
      right
      simp only [Chars.Zero, Chars.One] at h1 ⊢
      omega
    have hcodene : c - Chars.Zero ≠ 0 := by
      simp only [Chars.Zero, Chars.One] at h1 ⊢
      omega
    by_cases hoct : Chars.Zero ≤ d ∧ d ≤ Chars.Seven
    · have hc1 : (clt (charCodeAt s.source (s.index + 1 + 1)) Chars.Zero ||
          cgt (charCodeAt s.source (s.index + 1 + 1)) Chars.Seven) = false := by
        simp [hd2, clt, cgt, hoct.1, hoct.2]
      simp [scanStringEscape, ParserState.nextChar, ParserState.advance, hc, eB,
        eT, eN, eV, eF, eR, eBS, eSQ, eDQ, eU, eX, h03, hlen2, hc1, hstrict,
        throwAt]
    · have hc1 : (clt (charCodeAt s.source (s.index + 1 + 1)) Chars.Zero ||
          cgt (charCodeAt s.source (s.index + 1 + 1)) Chars.Seven) = true := by
        simp [hd2, clt, cgt]
        simp only [Chars.Zero, Chars.Seven] at hoct ⊢
        omega
      simp [scanStringEscape, ParserState.nextChar, ParserState.advance, hc, eB,
        eT, eN, eV, eF, eR, eBS, eSQ, eDQ, eU, eX, h03, hlen2, hc1, hcodene,
        hstrict, throwAt]
  · intro hstrict hc hlen
    obtain ⟨eB, eT, eN, eV, eF, eR, eBS, eSQ, eDQ, eU, eX⟩ :=
      ceq_digit_not_escape (c := Chars.Zero) (by simp)
        (by simp [Chars.Zero, Chars.Nine])
    have h03 : (cge (some Chars.Zero) Chars.Zero &&
        cle (some Chars.Zero) Chars.Three) = true := by
      simp [cge, cle, Chars.Zero, Chars.Three]
    obtain ⟨d, hd⟩ : ∃ d, charCodeAt s.source (s.index + 2) = some d := by
      rw [charCodeAt, List.get?_eq_getElem?]
      exact ⟨_, List.getElem?_eq_getElem hlen⟩
    have hd2 : charCodeAt s.source (s.index + 1 + 1) = some d := hd
    have hlen2 : s.index + 1 + 1 < s.source.length := hlen
    constructor
    · intro hoct
      rw [hd] at hoct
      simp only [cge, cle, Bool.and_eq_true, decide_eq_true_eq] at hoct
      have hc1 : (clt (charCodeAt s.source (s.index + 1 + 1)) Chars.Zero ||
          cgt (charCodeAt s.source (s.index + 1 + 1)) Chars.Seven) = false := by
        simp [hd2, clt, cgt, hoct.1, hoct.2]
      simp [scanStringEscape, ParserState.nextChar, ParserState.advance, hc, eB,
        eT, eN, eV, eF, eR, eBS, eSQ, eDQ, eU, eX, h03, hlen2, hc1, hstrict,
        throwAt]
    · intro hoct
      rw [hd] at hoct
      simp only [cge, cle, Bool.and_eq_false_iff, decide_eq_false_iff_not] at hoct
      have hc1 : (clt (charCodeAt s.source (s.index + 1 + 1)) Chars.Zero ||
          cgt (charCodeAt s.source (s.index + 1 + 1)) Chars.Seven) = true := by
        simp [hd2, clt, cgt]
        simp only [Chars.Zero, Chars.Seven] at hoct ⊢
        rcases hoct with h | h <;> omega
      simp [scanStringEscape, ParserState.nextChar, ParserState.advance, hc, eB,
        eT, eN, eV, eF, eR, eBS, eSQ, eDQ, eU, eX, h03, hlen2, hc1]
  · intro c hc h89
    have h0 : Chars.Zero ≤ c := by
      rcases h89 with h | h <;> simp [h, Chars.Zero, Chars.Eight, Chars.Nine]
    have h9 : c ≤ Chars.Nine := by
      rcases h89 with h | h <;> simp [h, Chars.Nine, Chars.Eight]
    obtain ⟨eB, eT, eN, eV, eF, eR, eBS, eSQ, eDQ, eU, eX⟩ :=
      ceq_digit_not_escape h0 h9
    have h03 : (cge (some c) Chars.Zero && cle (some c) Chars.Three) = false := by
      simp only [cge, cle, Bool.and_eq_false_iff, decide_eq_false_iff_not]
      right
      rcases h89 with h | h <;> simp [h, Chars.Three, Chars.Eight, Chars.Nine]
    have h47 : (cge (some c) Chars.Four && cle (some c) Chars.Seven) = false := by
      simp only [cge, cle, Bool.and_eq_false_iff, decide_eq_false_iff_not]
      right
      rcases h89 with h | h <;> simp [h, Chars.Seven, Chars.Eight, Chars.Nine]
    rcases h89 with h | h <;> subst h <;>
      simp [scanStringEscape, ParserState.nextChar, ParserState.advance, hc,
        throwAt, ceq, cge, cle, clt, cgt, Chars.LowerB, Chars.LowerT,
        Chars.LowerN, Chars.LowerV, Chars.LowerF, Chars.LowerR, Chars.Backslash,
        Chars.SingleQuote, Chars.DoubleQuote, Chars.LowerU, Chars.LowerX,
        Chars.Zero, Chars.Three, Chars.Four, Chars.Seven, Chars.Eight,
        Chars.Nine]

/-- Witness for C4: strict-mode escapes backslash-7 (fatal StrictOctalEscape),
backslash-1 with a digit in range (fatal StrictOctalLiteral), backslash-0
followed by an octal digit (fatal) and by a quote (legal NUL), and
backslash-8 (fatal InvalidEightAndNine), each on a concrete source. -/
theorem c4_witness :
    scanStringEscape { Context.none' with strict := true }
        { initialState (unitsOf "'\\7'") Flags.none' with index := 1, column := 1 } =
      Except.error (ScanFail.thrown ⟨Errors.StrictOctalEscape, 2, 1, 2, []⟩) ∧
    scanStringEscape { Context.none' with strict := true }
        { initialState (unitsOf "'\\12'") Flags.none' with index := 1, column := 1 } =
      Except.error (ScanFail.thrown ⟨Errors.StrictOctalLiteral, 2, 1, 2, []⟩) ∧
    scanStringEscape { Context.none' with strict := true }
        { initialState (unitsOf "'\\01'") Flags.none' with index := 1, column := 1 } =
      Except.error (ScanFail.thrown ⟨Errors.StrictOctalLiteral, 2, 1, 2, []⟩) ∧
    scanStringEscape { Context.none' with strict := true }
        { initialState (unitsOf "'\\0'") Flags.none' with index := 1, column := 1 } =
      Except.ok ([0],
        { initialState (unitsOf "'\\0'") Flags.none' with index := 2, column := 2 }) ∧
    scanStringEscape { Context.none' with strict := true }
        { initialState (unitsOf "'\\8'") Flags.none' with index := 1, column := 1 } =
      Except.error (ScanFail.thrown ⟨Errors.InvalidEightAndNine, 2, 1, 2, []⟩) :=
  ⟨(c4_stringEscape_octal _ _).1 55 rfl rfl (by decide) (by decide),
   (c4_stringEscape_octal _ _).2.1 49 rfl rfl (by decide) (by decide) (by decide),
   ((c4_stringEscape_octal { Context.none' with strict := true }
      { initialState (unitsOf "'\\01'") Flags.none' with index := 1, column := 1 }).2.2.1
      rfl rfl (by decide)).1 (by decide),
   ((c4_stringEscape_octal { Context.none' with strict := true }
      { initialState (unitsOf "'\\0'") Flags.none' with index := 1, column := 1 }).2.2.1
      rfl rfl (by decide)).2 (by decide),
   (c4_stringEscape_octal _ _).2.2.2 56 rfl (Or.inl rfl)⟩

/-- Witness for C10: the rejected var name x indeed sits NonShadowable in
the chain, and re-declaring an existing var name succeeds with the state
unchanged. -/
theorem c10_witness :
    lookupRef ⟨[⟨[], none⟩, ⟨[("x", ScopeMasks.NonShadowable)], some 0⟩],
        some 0, some 1, some 1⟩ (some 1) "x" = some ScopeMasks.NonShadowable ∧
    addVarName "x" ⟨[⟨[("x", ScopeMasks.Shadowable)], none⟩],
        some 0, some 0, some 0⟩ =
      Except.ok ⟨[⟨[("x", ScopeMasks.Shadowable)], none⟩],
        some 0, some 0, some 0⟩ := by
  constructor
  · exact ((c10_addVarName_duplicates "x"
      ⟨[⟨[], none⟩, ⟨[("x", ScopeMasks.NonShadowable)], some 0⟩],
       some 0, some 1, some 1⟩).1
      (Errors.DuplicateIdentifier, "x") rfl).2.2.1
  · exact (c10_addVarName_duplicates "x"
      ⟨[⟨[], none⟩], some 0, some 0, some 0⟩).2.2
      ⟨[⟨[("x", ScopeMasks.Shadowable)], none⟩], some 0, some 0, some 0⟩
      rfl

/-! Projection facts for the advance operation, keeping it folded. -/

theorem advance_source (s : ParserState) :
    (ParserState.advance s).source = s.source := rfl

theorem advance_index (s : ParserState) :
    (ParserState.advance s).index = s.index + 1 := rfl

theorem advance_column (s : ParserState) :
    (ParserState.advance s).column = s.column + 1 := rfl

theorem advance_line (s : ParserState) :
    (ParserState.advance s).line = s.line := rfl

theorem advance_flags (s : ParserState) :
    (ParserState.advance s).flags = s.flags := rfl

theorem substring_of_drop {src : List Nat} {i : Nat} {xs rest : List Nat}
    (h : src.drop i = xs ++ rest) : substringU src i (i + xs.length) = xs := by
  rw [substringU, if_pos (Nat.le_add_right _ _)]
  exact slice_of_drop h

/-- The token component of the shared number tail is decided by the bigint
bit alone. -/
theorem scanNumberTail_token (start : Nat) (st : NumberStateS) (endPos : Nat)
    (s : ParserState) (exp : Bool) :
    (scanNumberTail start st endPos s exp).1 =
      if st.bigint = true then Token.BigIntLiteral else Token.NumericLiteral := by
  unfold scanNumberTail
  cases exp <;> simp <;> split_ifs <;> simp

/-- The token component of scanBigInt is always the BigInt token. -/
theorem scanBigInt_fst (s : ParserState) :
    (scanBigInt s).1 = Token.BigIntLiteral := by
  unfold scanBigInt
  simp only []

theorem skipDigits_advance_run (s : ParserState) (ds rest : List Nat)
    (hdrop : s.source.drop (s.index + 1) = ds ++ rest)
    (hdig : allDigitUnits ds = true)
    (hstop : isDigit (charCodeAt s.source (s.index + 1 + ds.length)) = false) :
    skipDigits (ParserState.advance s) =
      { s with index := s.index + 1 + ds.length,
               column := s.column + 1 + (ds.length : Int) } := by
  rw [skipDigits_run (ParserState.advance s) ds rest hdrop hdig hstop]
  ext <;> simp [ParserState.advance]

/-- C5: under the next option a trailing n directly after the integer
digits of a decimal literal yields a BigIntLiteral token; a trailing n
after fraction digits is fatal with the Unexpected error at the position
of the n; a legacy octal literal (leading zero then digits) with a
trailing n is not fatal: scanNumberLiteral also returns a BigIntLiteral
token; and a trailing n after an exponent is never examined by the
bigint check: on 1e5n the scanner returns a NumericLiteral with raw 1e5
and leaves the cursor on the n. -/
theorem c5_bigint_suffix (ctx : Context) (first : Option Nat) (s0 : ParserState) :
    (∀ ds rest, s0.flags.optionsNext = true →
      s0.source.drop s0.index = ds ++ Chars.LowerN :: rest →
      allDigitUnits ds = true →
      (scanNumber ctx first s0).map Prod.fst = Except.ok Token.BigIntLiteral) ∧
    (∀ ds1 ds2 rest, s0.flags.optionsNext = true →
      s0.source.drop s0.index =
        ds1 ++ Chars.Period :: (ds2 ++ Chars.LowerN :: rest) →
      allDigitUnits ds1 = true → allDigitUnits ds2 = true →
      scanNumber ctx first s0 = Except.error (ScanFail.thrown
        ⟨Errors.Unexpected, s0.index + ds1.length + 1 + ds2.length, s0.line,
         s0.column + (ds1.length : Int) + 1 + (ds2.length : Int), []⟩)) ∧
    (∀ d ds rest, ctx.strict = false → s0.flags.optionsNext = true →
      s0.source.drop (s0.index + 1) = (d :: ds) ++ Chars.LowerN :: rest →
      allDigitUnits (d :: ds) = true →
      (scanNumberLiteral ctx s0).map Prod.fst = Except.ok Token.BigIntLiteral) ∧
    (scanNumber Context.none' (some 49)
        (initialState (unitsOf "1e5n")
          { Flags.none' with optionsNext := true, optionsRaw := true })).map
        (fun r => (r.1, r.2.tokenRaw, r.2.tokenValue, r.2.index)) =
      Except.ok (Token.NumericLiteral, unitsOf "1e5",
        parseFloat (unitsOf "1e5"), 3) := by
  refine ⟨?_, ?_, ?_, ?_⟩
  · intro ds rest hnext hdrop hdig
    have hdropn : s0.source.drop (s0.index + ds.length) = Chars.LowerN :: rest :=
      drop_append_of_drop hdrop
    have hcn : charCodeAt s0.source (s0.index + ds.length) = some Chars.LowerN :=
      charCodeAt_of_drop hdropn
    have hstop : isDigit (charCodeAt s0.source (s0.index + ds.length)) = false := by
      rw [hcn]; decide
    have hs := skipDigits_run s0 ds (Chars.LowerN :: rest) hdrop hdig hstop
    simp only [scanNumber, hs]
    simp [ParserState.nextChar, hcn, ceq, Chars.Period, Chars.LowerN, hnext,
      scanNumberTail_token, Except.map]
  · intro ds1 ds2 rest hnext hdrop hdig1 hdig2
    have hdropp : s0.source.drop (s0.index + ds1.length) =
        Chars.Period :: (ds2 ++ Chars.LowerN :: rest) := drop_append_of_drop hdrop
    have hcp : charCodeAt s0.source (s0.index + ds1.length) = some Chars.Period :=
      charCodeAt_of_drop hdropp
    have hstop1 : isDigit (charCodeAt s0.source (s0.index + ds1.length)) = false := by
      rw [hcp]; decide
    have hs1 := skipDigits_run s0 ds1 _ hdrop hdig1 hstop1
    have hdrop2 : s0.source.drop (s0.index + ds1.length + 1) =
        ds2 ++ Chars.LowerN :: rest := by
      have h2 := @drop_append_of_drop _ _ (ds1 ++ [Chars.Period])
        (ds2 ++ Chars.LowerN :: rest) (by simpa using hdrop)
      simpa [Nat.add_assoc] using h2
    have hcn2 : charCodeAt s0.source (s0.index + ds1.length + 1 + ds2.length) =
        some Chars.LowerN :=
      charCodeAt_of_drop (drop_append_of_drop hdrop2)
    have hstop2 : isDigit
        (charCodeAt s0.source (s0.index + ds1.length + 1 + ds2.length)) = false := by
      rw [hcn2]; decide
    have hn1 : ParserState.nextChar (skipDigits s0) = some Chars.Period := by
      rw [hs1]; exact hcp
    have hd2f : (skipDigits s0).source.drop ((skipDigits s0).index + 1) =
        ds2 ++ Chars.LowerN :: rest := by rw [hs1]; exact hdrop2
    have hst2f : isDigit (charCodeAt (skipDigits s0).source
        ((skipDigits s0).index + 1 + ds2.length)) = false := by
      rw [hs1]; exact hstop2
    have hs2 := skipDigits_advance_run (skipDigits s0) ds2 (Chars.LowerN :: rest)
      hd2f hdig2 hst2f
    have hn2 : ParserState.nextChar
        (skipDigits (ParserState.advance (skipDigits s0))) = some Chars.LowerN := by
      rw [hs2, hs1]; exact hcn2
    have hf2 : (skipDigits (ParserState.advance (skipDigits s0))).flags = s0.flags := by
      rw [hs2, hs1]
    simp only [scanNumber]
    rw [hn1]
    simp only [ceq, beq_self_eq_true, if_true]
    rw [hn2]
    simp only [ceq, beq_self_eq_true, if_true]
    rw [hf2, hnext]
    simp only [throwAt]
    rw [hs2]
    simp [hs1]
  · intro d ds rest hstrict hnext hdrop1 hdig
    have hdrop2 : s0.source.drop (s0.index + 1 + 1) = ds ++ Chars.LowerN :: rest := by
      have h2 := @drop_append_of_drop _ _ [d] (ds ++ Chars.LowerN :: rest)
        (by simpa using hdrop1)
      simpa using h2
    obtain ⟨e, he, heP⟩ : ∃ e, charCodeAt s0.source (s0.index + 1 + 1) = some e ∧
        ((Chars.Zero ≤ e ∧ e ≤ Chars.Nine) ∨ e = Chars.LowerN) := by
      cases ds with
      | nil =>
        exact ⟨Chars.LowerN, charCodeAt_of_drop (by simpa using hdrop2), Or.inr rfl⟩
      | cons d2 ds2 =>
        refine ⟨d2, charCodeAt_of_drop (by simpa using hdrop2), Or.inl ?_⟩
        have h := hdig
        simp only [allDigitUnits, List.all_eq_true] at h
        have h2 := h d2 (by simp)
        simpa using h2
    have hpne : ∀ b : Nat, b ≠ Chars.LowerN → (b < Chars.Zero ∨ Chars.Nine < b) →
        ceq (charCodeAt s0.source (s0.index + 1 + 1)) b = false := by
      intro b hbn hbr
      rw [he]
      simp only [ceq, beq_eq_false_iff_ne, ne_eq, Option.some.injEq]
      rcases heP with ⟨h1, h2⟩ | h
      · simp only [Chars.Zero, Chars.Nine] at h1 h2 hbr
        rcases hbr with hb | hb <;> omega
      · subst h
        exact fun hh => hbn hh.symm
    have hcend : charCodeAt s0.source (s0.index + 1 + (ds.length + 1)) =
        some Chars.LowerN := by
      rw [show s0.index + 1 + (ds.length + 1) = s0.index + 1 + 1 + ds.length by omega]
      exact charCodeAt_of_drop (drop_append_of_drop hdrop2)
    have hfuel : (d :: ds).length < s0.source.length + 1 - (s0.index + 1) := by
      rcases length_bound_of_drop hdrop1 with h | ⟨h, -⟩
      · simp only [List.length_cons, List.length_append] at h ⊢
        simp at h ⊢
        omega
      · simp at h
    have hnl := numLitLoop_run (d :: ds)
      (s0.source.length + 1 - (s0.index + 1)) 0
      (ParserState.nextChar (ParserState.advance s0)) (ParserState.advance s0)
      (Chars.LowerN :: rest) Chars.LowerN hdrop1 hdig hcend (by decide) hfuel
    simp only [scanNumberLiteral, hstrict, Bool.false_eq_true, if_false]
    rw [show charCodeAt (ParserState.advance s0).source
        ((ParserState.advance s0).index + 1) =
        charCodeAt s0.source (s0.index + 1 + 1) from rfl]
    rw [hpne Chars.LowerB (by decide) (by decide),
      hpne Chars.UpperB (by decide) (by decide),
      hpne Chars.LowerO (by decide) (by decide),
      hpne Chars.UpperO (by decide) (by decide)]
    simp only [Bool.or_false, Bool.false_eq_true, if_false]
    rw [show ((ParserState.advance s0).source.length + 1 -
          (ParserState.advance s0).index : Nat) =
        (s0.source.length + 1 - (s0.index + 1) : Nat) from rfl]
    rw [hnl]
    simp [ceq, Chars.LowerN, ParserState.advance, hnext, scanBigInt_fst, Except.map]
  · rfl

/-- Witness for C5: the sources 5n (BigInt token), 1.2n; (fatal Unexpected
at the n), and 07n (legacy octal, BigInt token without error); the
exponent conjunct on 1e5n is closed and needs no instantiation. -/
theorem c5_witness :
    (scanNumber Context.none' (some 53)
        (initialState (unitsOf "5n")
          { Flags.none' with optionsNext := true })).map Prod.fst =
      Except.ok Token.BigIntLiteral ∧
    scanNumber Context.none' (some 49)
        (initialState (unitsOf "1.2n;")
          { Flags.none' with optionsNext := true }) =
      Except.error (ScanFail.thrown ⟨Errors.Unexpected, 3, 1, 3, []⟩) ∧
    (scanNumberLiteral Context.none'
        (initialState (unitsOf "07n")
          { Flags.none' with optionsNext := true })).map Prod.fst =
      Except.ok Token.BigIntLiteral :=
  ⟨(c5_bigint_suffix Context.none' (some 53)
      (initialState (unitsOf "5n") { Flags.none' with optionsNext := true })).1
      [53] [] rfl (by decide) (by decide),
   (c5_bigint_suffix Context.none' (some 49)
      (initialState (unitsOf "1.2n;") { Flags.none' with optionsNext := true })).2.1
      [49] [50] [59] rfl (by decide) (by decide) (by decide),
   (c5_bigint_suffix Context.none' (some 48)
      (initialState (unitsOf "07n") { Flags.none' with optionsNext := true })).2.2.1
      55 [] [] rfl rfl (by decide) (by decide)⟩

theorem skipDigitsLoop_flags : ∀ (fuel : Nat) (s : ParserState),
    (skipDigitsLoop fuel s).flags = s.flags := by
  intro fuel
  induction fuel with
  | zero => intro s; rfl
  | succ k ih =>
    intro s
    simp only [skipDigitsLoop]
    split_ifs <;> first | exact ih s.advance | rfl

theorem skipDigits_flags (s : ParserState) :
    (skipDigits s).flags = s.flags :=
  skipDigitsLoop_flags _ s

/-- In the shared number tail, when the raw option is on the recorded raw
slice and the value agree: the value is parseFloat of the recorded raw. -/
theorem scanNumberTail_raw_value (start : Nat) (st : NumberStateS)
    (endPos : Nat) (s : ParserState) (exp : Bool)
    (hraw : s.flags.optionsRaw = true) :
    (scanNumberTail start st endPos s exp).2.tokenValue =
      parseFloat (scanNumberTail start st endPos s exp).2.tokenRaw := by
  unfold scanNumberTail
  cases exp <;>
    simp only [Bool.false_eq_true, if_false, if_true] <;>
    split_ifs <;>
    simp_all [skipDigits_flags, advance_flags]

theorem raw_value_of_ok (start : Nat) (st : NumberStateS) (endPos : Nat)
    (sx : ParserState) (exp : Bool) (t : Token) (s2 : ParserState)
    (hraw : sx.flags.optionsRaw = true)
    (h : scanNumberTail start st endPos sx exp = (t, s2)) :
    s2.tokenValue = parseFloat s2.tokenRaw := by
  have h2 := congrArg Prod.snd h
  simp only at h2
  rw [← h2]
  exact scanNumberTail_raw_value start st endPos sx exp hraw





/-- C7: with the raw option on, every successful decimal scan records a
value equal to parseFloat of the recorded raw slice; for an integer
literal and for a fraction literal the recorded raw is exactly the source
characters of the literal; but for a BigInt literal under the next option
the recorded raw excludes the trailing n (and the cursor over-advances by
two, skipping the unit after the n). -/
theorem c7_raw_value (ctx : Context) (first : Option Nat) (s0 : ParserState) :
    (∀ t s2, s0.flags.optionsRaw = true →
      scanNumber ctx first s0 = Except.ok (t, s2) →
      s2.tokenValue = parseFloat s2.tokenRaw) ∧
    (∀ ds rest, s0.flags.optionsRaw = true →
      s0.source.drop s0.index = ds ++ rest →
      allDigitUnits ds = true →
      isDigit (charCodeAt s0.source (s0.index + ds.length)) = false →
      ceq (charCodeAt s0.source (s0.index + ds.length)) Chars.Period = false →
      ceq (charCodeAt s0.source (s0.index + ds.length)) Chars.LowerN = false →
      ceq (charCodeAt s0.source (s0.index + ds.length)) Chars.LowerE = false →
      ceq (charCodeAt s0.source (s0.index + ds.length)) Chars.UpperE = false →
      (scanNumber ctx first s0).map
          (fun r => (r.1, r.2.tokenRaw, r.2.tokenValue, r.2.index)) =
        Except.ok (Token.NumericLiteral, ds, parseFloat ds,
          s0.index + ds.length)) ∧
    (∀ ds1 ds2 rest, s0.flags.optionsRaw = true →
      s0.source.drop s0.index = ds1 ++ Chars.Period :: (ds2 ++ rest) →
      allDigitUnits ds1 = true → allDigitUnits ds2 = true →
      isDigit (charCodeAt s0.source
        (s0.index + ds1.length + 1 + ds2.length)) = false →
      ceq (charCodeAt s0.source (s0.index + ds1.length + 1 + ds2.length))
        Chars.LowerN = false →
      ceq (charCodeAt s0.source (s0.index + ds1.length + 1 + ds2.length))
        Chars.LowerE = false →
      ceq (charCodeAt s0.source (s0.index + ds1.length + 1 + ds2.length))
        Chars.UpperE = false →
      (scanNumber ctx first s0).map
          (fun r => (r.1, r.2.tokenRaw, r.2.tokenValue, r.2.index)) =
        Except.ok (Token.NumericLiteral, ds1 ++ Chars.Period :: ds2,
          parseFloat (ds1 ++ Chars.Period :: ds2),
          s0.index + ds1.length + 1 + ds2.length)) ∧
    (∀ ds rest, s0.flags.optionsRaw = true → s0.flags.optionsNext = true →
      s0.source.drop s0.index = ds ++ Chars.LowerN :: rest →
      allDigitUnits ds = true →
      ceq (charCodeAt s0.source (s0.index + ds.length + 2)) Chars.Plus = false →
      ceq (charCodeAt s0.source (s0.index + ds.length + 2)) Chars.Hyphen = false →
      (cge (charCodeAt s0.source (s0.index + ds.length + 2)) Chars.Zero &&
        cle (charCodeAt s0.source (s0.index + ds.length + 2)) Chars.Nine) = false →
      (scanNumber ctx first s0).map
          (fun r => (r.1, r.2.tokenRaw, r.2.tokenValue, r.2.index)) =
        Except.ok (Token.BigIntLiteral, ds, parseFloat ds,
          s0.index + ds.length + 2)) := by
  refine ⟨?_, ?_, ?_, ?_⟩
  · intro t s2 hraw hok
    unfold scanNumber at hok
    simp only [] at hok
    by_cases hP : ceq (ParserState.nextChar (skipDigits s0)) Chars.Period = true <;>
      simp only [hP, if_true, Bool.false_eq_true, if_false] at hok
    · split at hok
      · split at hok
        · exact absurd hok (by simp [throwAt])
        · exact raw_value_of_ok _ _ _ _ _ t s2
            (by simp [skipDigits_flags, advance_flags, hraw]) (Except.ok.inj hok)
      · split at hok
        · exact raw_value_of_ok _ _ _ _ _ t s2
            (by simp [skipDigits_flags, advance_flags, hraw]) (Except.ok.inj hok)
        · exact raw_value_of_ok _ _ _ _ _ t s2
            (by simp [skipDigits_flags, advance_flags, hraw]) (Except.ok.inj hok)
    · split at hok
      · split at hok
        · exact raw_value_of_ok _ _ _ _ _ t s2
            (by simp [skipDigits_flags, advance_flags, hraw]) (Except.ok.inj hok)
        · exact raw_value_of_ok _ _ _ _ _ t s2
            (by simp [skipDigits_flags, advance_flags, hraw]) (Except.ok.inj hok)
      · split at hok
        · exact raw_value_of_ok _ _ _ _ _ t s2
            (by simp [skipDigits_flags, advance_flags, hraw]) (Except.ok.inj hok)
        · exact raw_value_of_ok _ _ _ _ _ t s2
            (by simp [skipDigits_flags, advance_flags, hraw]) (Except.ok.inj hok)
  · intro ds rest hraw hdrop hdig hstop hnP hnN hne hnE
    have hs1 := skipDigits_run s0 ds rest hdrop hdig hstop
    have hn1 : ParserState.nextChar (skipDigits s0) =
        charCodeAt s0.source (s0.index + ds.length) := by rw [hs1]; rfl
    simp only [scanNumber]
    rw [hn1, hnP]
    simp only [Bool.false_eq_true, if_false]
    rw [hn1, hnN, hne, hnE]
    simp only [Bool.or_self, Bool.false_eq_true, if_false]
    rw [hs1]
    simp only [scanNumberTail]
    simp [skipDigits_flags, hraw, substring_of_drop hdrop, Except.map]
  · intro ds1 ds2 rest hraw hdrop hdig1 hdig2 hstop2 hnN hne hnE
    have hdropp : s0.source.drop (s0.index + ds1.length) =
        Chars.Period :: (ds2 ++ rest) := drop_append_of_drop hdrop
    have hcp : charCodeAt s0.source (s0.index + ds1.length) = some Chars.Period :=
      charCodeAt_of_drop hdropp
    have hstop1 : isDigit (charCodeAt s0.source (s0.index + ds1.length)) = false := by
      rw [hcp]; decide
    have hs1 := skipDigits_run s0 ds1 _ hdrop hdig1 hstop1
    have hdrop2 : s0.source.drop (s0.index + ds1.length + 1) = ds2 ++ rest := by
      have h2 := @drop_append_of_drop _ _ (ds1 ++ [Chars.Period])
        (ds2 ++ rest) (by simpa using hdrop)
      simpa [Nat.add_assoc] using h2
    have hn1 : ParserState.nextChar (skipDigits s0) = some Chars.Period := by
      rw [hs1]; exact hcp
    have hd2f : (skipDigits s0).source.drop ((skipDigits s0).index + 1) =
        ds2 ++ rest := by rw [hs1]; exact hdrop2
    have hst2f : isDigit (charCodeAt (skipDigits s0).source
        ((skipDigits s0).index + 1 + ds2.length)) = false := by
      rw [hs1]; exact hstop2
    have hs2 := skipDigits_advance_run (skipDigits s0) ds2 rest hd2f hdig2 hst2f
    have hn2 : ParserState.nextChar
        (skipDigits (ParserState.advance (skipDigits s0))) =
        charCodeAt s0.source (s0.index + ds1.length + 1 + ds2.length) := by
      rw [hs2, hs1]; rfl
    have hdropC : s0.source.drop s0.index = (ds1 ++ Chars.Period :: ds2) ++ rest := by
      rw [hdrop]; simp
    have hsub2 : substringU s0.source s0.index
        (s0.index + ds1.length + 1 + ds2.length) = ds1 ++ Chars.Period :: ds2 := by
      rw [show s0.index + ds1.length + 1 + ds2.length =
        s0.index + (ds1 ++ Chars.Period :: ds2).length by simp; omega]
      exact substring_of_drop hdropC
    simp only [scanNumber]
    rw [hn1]
    rw [show ceq (some Chars.Period) Chars.Period = true from rfl]
    simp only [if_true]
    rw [hn2, hnN, hne, hnE]
    simp only [Bool.or_self, Bool.false_eq_true, if_false]
    rw [hs2, hs1]
    simp only [scanNumberTail]
    simp [hraw, hsub2, Except.map]
  · intro ds rest hraw hnext hdrop hdig hc2P hc2H hc2d
    have hdropn : s0.source.drop (s0.index + ds.length) = Chars.LowerN :: rest :=
      drop_append_of_drop hdrop
    have hcn : charCodeAt s0.source (s0.index + ds.length) = some Chars.LowerN :=
      charCodeAt_of_drop hdropn
    have hstop : isDigit (charCodeAt s0.source (s0.index + ds.length)) = false := by
      rw [hcn]; decide
    have hs1 := skipDigits_run s0 ds (Chars.LowerN :: rest) hdrop hdig hstop
    have hn1 : ParserState.nextChar (skipDigits s0) = some Chars.LowerN := by
      rw [hs1]; exact hcn
    have hfl : (skipDigits s0).flags = s0.flags := skipDigits_flags s0
    have hn2 : ParserState.nextChar
        (ParserState.advance (ParserState.advance (skipDigits s0))) =
        charCodeAt s0.source (s0.index + ds.length + 2) := by
      rw [hs1]; rfl
    have hsub : substringU s0.source s0.index (s0.index + ds.length) = ds :=
      substring_of_drop hdrop
    simp only [scanNumber]
    rw [hn1]
    rw [show ceq (some Chars.LowerN) Chars.Period = false from rfl]
    simp only [Bool.false_eq_true, if_false]
    rw [hn1]
    rw [show ceq (some Chars.LowerN) Chars.LowerN = true from rfl]
    simp only [if_true]
    rw [hfl, hnext]
    simp only [if_true, Bool.false_eq_true, if_false]
    simp only [scanNumberTail, if_true]
    rw [hn2, hc2P, hc2H]
    simp only [Bool.or_self, Bool.false_eq_true, if_false]
    rw [hc2d]
    simp only [Bool.false_eq_true, if_false]
    rw [hs1]
    simp [hraw, hsub, Except.map, advance_source, advance_index, advance_column,
      advance_line, advance_flags]

/-- Witness for C7: raw and value for the integer 42, the fraction 1.5,
and the BigInt 9n (raw without the n, index over-advanced past the
semicolon); value equals parseFloat of raw on the concrete scan of 7. -/
theorem c7_witness :
    (scanNumber Context.none' (some 52)
        (initialState (unitsOf "42;") { Flags.none' with optionsRaw := true })).map
        (fun r => (r.1, r.2.tokenRaw, r.2.tokenValue, r.2.index)) =
      Except.ok (Token.NumericLiteral, unitsOf "42",
        parseFloat (unitsOf "42"), 2) ∧
    (scanNumber Context.none' (some 49)
        (initialState (unitsOf "1.5;") { Flags.none' with optionsRaw := true })).map
        (fun r => (r.1, r.2.tokenRaw, r.2.tokenValue, r.2.index)) =
      Except.ok (Token.NumericLiteral, unitsOf "1.5",
        parseFloat (unitsOf "1.5"), 3) ∧
    (scanNumber Context.none' (some 57)
        (initialState (unitsOf "9n;")
          { Flags.none' with optionsRaw := true, optionsNext := true })).map
        (fun r => (r.1, r.2.tokenRaw, r.2.tokenValue, r.2.index)) =
      Except.ok (Token.BigIntLiteral, unitsOf "9", parseFloat (unitsOf "9"), 3) ∧
    ({ initialState (unitsOf "7;") { Flags.none' with optionsRaw := true } with
        index := 1, column := 1, tokenRaw := unitsOf "7",
        tokenValue := parseFloat (unitsOf "7") } : ParserState).tokenValue =
      parseFloat ({ initialState (unitsOf "7;")
          { Flags.none' with optionsRaw := true } with
        index := 1, column := 1, tokenRaw := unitsOf "7",
        tokenValue := parseFloat (unitsOf "7") } : ParserState).tokenRaw :=
  ⟨(c7_raw_value Context.none' (some 52)
      (initialState (unitsOf "42;") { Flags.none' with optionsRaw := true })).2.1
      [52, 50] [59] rfl (by decide) (by decide) (by decide) (by decide)
      (by decide) (by decide) (by decide),
   (c7_raw_value Context.none' (some 49)
      (initialState (unitsOf "1.5;") { Flags.none' with optionsRaw := true })).2.2.1
      [49] [53] [59] rfl (by decide) (by decide) (by decide) (by decide)
      (by decide) (by decide) (by decide),
   (c7_raw_value Context.none' (some 57)
      (initialState (unitsOf "9n;")
        { Flags.none' with optionsRaw := true, optionsNext := true })).2.2.2
      [57] [59] rfl rfl (by decide) (by decide) (by decide) (by decide)
      (by decide),
   (c7_raw_value Context.none' (some 55)
      (initialState (unitsOf "7;") { Flags.none' with optionsRaw := true })).1
      Token.NumericLiteral _ rfl rfl⟩

theorem regexFlagsLoop_step (fuel index mask : Nat) (s : ParserState)
    (c b : Nat) (hc : charCodeAt s.source index = some c)
    (hlt : index < s.source.length)
    (hbit : flagBit s.flags.optionsNext c = some b)
    (hdup : mask &&& b = 0) :
    regexFlagsLoop (fuel + 1) index mask s =
      regexFlagsLoop fuel (index + 1) (mask ||| b)
        { s with column := s.column + 1 } := by
  unfold flagBit at hbit
  split_ifs at hbit with h1 h2 h3 h4 h5 h6
  · obtain rfl : b = RegExpFlag.Global := (Option.some.inj hbit).symm
    subst h1
    simp only [regexFlagsLoop, hc]
    rw [if_pos hlt]
    norm_num [isIdPartO, isIdentifierPart, isIdentifierStart, ceq,
      Chars.LowerG, Chars.LowerI, Chars.LowerM, Chars.LowerU, Chars.LowerY,
      Chars.LowerS, Chars.Dollar, Chars.Underscore, Chars.UpperA, Chars.UpperZ,
      Chars.LowerA, Chars.LowerZ, Chars.Backslash, Chars.Zero, Chars.Nine, hdup]
  · obtain rfl : b = RegExpFlag.IgnoreCase := (Option.some.inj hbit).symm
    subst h2
    simp only [regexFlagsLoop, hc]
    rw [if_pos hlt]
    norm_num [isIdPartO, isIdentifierPart, isIdentifierStart, ceq,
      Chars.LowerG, Chars.LowerI, Chars.LowerM, Chars.LowerU, Chars.LowerY,
      Chars.LowerS, Chars.Dollar, Chars.Underscore, Chars.UpperA, Chars.UpperZ,
      Chars.LowerA, Chars.LowerZ, Chars.Backslash, Chars.Zero, Chars.Nine, hdup]
  · obtain rfl : b = RegExpFlag.Multiline := (Option.some.inj hbit).symm
    subst h3
    simp only [regexFlagsLoop, hc]
    rw [if_pos hlt]
    norm_num [isIdPartO, isIdentifierPart, isIdentifierStart, ceq,
      Chars.LowerG, Chars.LowerI, Chars.LowerM, Chars.LowerU, Chars.LowerY,
      Chars.LowerS, Chars.Dollar, Chars.Underscore, Chars.UpperA, Chars.UpperZ,
      Chars.LowerA, Chars.LowerZ, Chars.Backslash, Chars.Zero, Chars.Nine, hdup]
  · obtain rfl : b = RegExpFlag.Unicode := (Option.some.inj hbit).symm
    subst h4
    simp only [regexFlagsLoop, hc]
    rw [if_pos hlt]
    norm_num [isIdPartO, isIdentifierPart, isIdentifierStart, ceq,
      Chars.LowerG, Chars.LowerI, Chars.LowerM, Chars.LowerU, Chars.LowerY,
      Chars.LowerS, Chars.Dollar, Chars.Underscore, Chars.UpperA, Chars.UpperZ,
      Chars.LowerA, Chars.LowerZ, Chars.Backslash, Chars.Zero, Chars.Nine, hdup]
  · obtain rfl : b = RegExpFlag.Sticky := (Option.some.inj hbit).symm
    subst h5
    simp only [regexFlagsLoop, hc]
    rw [if_pos hlt]
    norm_num [isIdPartO, isIdentifierPart, isIdentifierStart, ceq,
      Chars.LowerG, Chars.LowerI, Chars.LowerM, Chars.LowerU, Chars.LowerY,
      Chars.LowerS, Chars.Dollar, Chars.Underscore, Chars.UpperA, Chars.UpperZ,
      Chars.LowerA, Chars.LowerZ, Chars.Backslash, Chars.Zero, Chars.Nine, hdup]
  · obtain rfl : b = RegExpFlag.DotAll := (Option.some.inj hbit).symm
    obtain ⟨rfl, hnx⟩ : c = Chars.LowerS ∧ s.flags.optionsNext = true := h6
    simp only [regexFlagsLoop, hc]
    rw [if_pos hlt]
    norm_num [isIdPartO, isIdentifierPart, isIdentifierStart, ceq, hnx,
      Chars.LowerG, Chars.LowerI, Chars.LowerM, Chars.LowerU, Chars.LowerY,
      Chars.LowerS, Chars.Dollar, Chars.Underscore, Chars.UpperA, Chars.UpperZ,
      Chars.LowerA, Chars.LowerZ, Chars.Backslash, Chars.Zero, Chars.Nine, hdup]

theorem regexFlagsLoop_dup (fuel index mask : Nat) (s : ParserState)
    (c b : Nat) (hc : charCodeAt s.source index = some c)
    (hlt : index < s.source.length)
    (hbit : flagBit s.flags.optionsNext c = some b)
    (hdup : mask &&& b ≠ 0) :
    regexFlagsLoop (fuel + 1) index mask s =
      Except.error (ScanFail.thrown
        ⟨Errors.DuplicateRegExpFlag, s.index, s.line, s.column, [[c]]⟩) := by
  unfold flagBit at hbit
  split_ifs at hbit with h1 h2 h3 h4 h5 h6
  · obtain rfl : b = RegExpFlag.Global := (Option.some.inj hbit).symm
    subst h1
    simp only [regexFlagsLoop, hc]
    rw [if_pos hlt]
    norm_num [isIdPartO, isIdentifierPart, isIdentifierStart, ceq, throwAt,
      Chars.LowerG, Chars.LowerI, Chars.LowerM, Chars.LowerU, Chars.LowerY,
      Chars.LowerS, Chars.Dollar, Chars.Underscore, Chars.UpperA, Chars.UpperZ,
      Chars.LowerA, Chars.LowerZ, Chars.Backslash, Chars.Zero, Chars.Nine, hdup]
  · obtain rfl : b = RegExpFlag.IgnoreCase := (Option.some.inj hbit).symm
    subst h2
    simp only [regexFlagsLoop, hc]
    rw [if_pos hlt]
    norm_num [isIdPartO, isIdentifierPart, isIdentifierStart, ceq, throwAt,
      Chars.LowerG, Chars.LowerI, Chars.LowerM, Chars.LowerU, Chars.LowerY,
      Chars.LowerS, Chars.Dollar, Chars.Underscore, Chars.UpperA, Chars.UpperZ,
      Chars.LowerA, Chars.LowerZ, Chars.Backslash, Chars.Zero, Chars.Nine, hdup]
  · obtain rfl : b = RegExpFlag.Multiline := (Option.some.inj hbit).symm
    subst h3
    simp only [regexFlagsLoop, hc]
    rw [if_pos hlt]
    norm_num [isIdPartO, isIdentifierPart, isIdentifierStart, ceq, throwAt,
      Chars.LowerG, Chars.LowerI, Chars.LowerM, Chars.LowerU, Chars.LowerY,
      Chars.LowerS, Chars.Dollar, Chars.Underscore, Chars.UpperA, Chars.UpperZ,
      Chars.LowerA, Chars.LowerZ, Chars.Backslash, Chars.Zero, Chars.Nine, hdup]
  · obtain rfl : b = RegExpFlag.Unicode := (Option.some.inj hbit).symm
    subst h4
    simp only [regexFlagsLoop, hc]
    rw [if_pos hlt]
    norm_num [isIdPartO, isIdentifierPart, isIdentifierStart, ceq, throwAt,
      Chars.LowerG, Chars.LowerI, Chars.LowerM, Chars.LowerU, Chars.LowerY,
      Chars.LowerS, Chars.Dollar, Chars.Underscore, Chars.UpperA, Chars.UpperZ,
      Chars.LowerA, Chars.LowerZ, Chars.Backslash, Chars.Zero, Chars.Nine, hdup]
  · obtain rfl : b = RegExpFlag.Sticky := (Option.some.inj hbit).symm
    subst h5
    simp only [regexFlagsLoop, hc]
    rw [if_pos hlt]
    norm_num [isIdPartO, isIdentifierPart, isIdentifierStart, ceq, throwAt,
      Chars.LowerG, Chars.LowerI, Chars.LowerM, Chars.LowerU, Chars.LowerY,
      Chars.LowerS, Chars.Dollar, Chars.Underscore, Chars.UpperA, Chars.UpperZ,
      Chars.LowerA, Chars.LowerZ, Chars.Backslash, Chars.Zero, Chars.Nine, hdup]
  · obtain rfl : b = RegExpFlag.DotAll := (Option.some.inj hbit).symm
    obtain ⟨rfl, hnx⟩ : c = Chars.LowerS ∧ s.flags.optionsNext = true := h6
    simp only [regexFlagsLoop, hc]
    rw [if_pos hlt]
    norm_num [isIdPartO, isIdentifierPart, isIdentifierStart, ceq, throwAt, hnx,
      Chars.LowerG, Chars.LowerI, Chars.LowerM, Chars.LowerU, Chars.LowerY,
      Chars.LowerS, Chars.Dollar, Chars.Underscore, Chars.UpperA, Chars.UpperZ,
      Chars.LowerA, Chars.LowerZ, Chars.Backslash, Chars.Zero, Chars.Nine, hdup]

theorem regexFlagsLoop_unknown (fuel index mask : Nat) (s : ParserState)
    (c : Nat) (hc : charCodeAt s.source index = some c)
    (hlt : index < s.source.length)
    (hid : isIdPartO (some c) = true)
    (hbit : flagBit s.flags.optionsNext c = none)
    (hlow : c < 0xD800) :
    regexFlagsLoop (fuel + 1) index mask s =
      Except.error (ScanFail.thrown
        ⟨Errors.UnexpectedTokenRegExpFlag, s.index, s.line, s.column, []⟩) := by
  have hbit2 := hbit
  unfold flagBit at hbit2
  split_ifs at hbit2 with h1 h2 h3 h4 h5 h6
  have hg : ceq (some c) Chars.LowerG = false := by
    simp only [ceq, beq_eq_false_iff_ne, ne_eq, Option.some.injEq]; exact h1
  have hi : ceq (some c) Chars.LowerI = false := by
    simp only [ceq, beq_eq_false_iff_ne, ne_eq, Option.some.injEq]; exact h2
  have hm : ceq (some c) Chars.LowerM = false := by
    simp only [ceq, beq_eq_false_iff_ne, ne_eq, Option.some.injEq]; exact h3
  have hu : ceq (some c) Chars.LowerU = false := by
    simp only [ceq, beq_eq_false_iff_ne, ne_eq, Option.some.injEq]; exact h4
  have hy : ceq (some c) Chars.LowerY = false := by
    simp only [ceq, beq_eq_false_iff_ne, ne_eq, Option.some.injEq]; exact h5
  have hs6 : (ceq (some c) Chars.LowerS && s.flags.optionsNext) = false := by
    by_cases hcs : c = Chars.LowerS
    · subst hcs
      simp only [ceq, beq_self_eq_true, Bool.true_and]
      exact Bool.eq_false_iff.mpr (fun h => h6 ⟨rfl, h⟩)
    · simp only [ceq, beq_eq_false_iff_ne, ne_eq, Option.some.injEq,
        Bool.and_eq_false_iff]
      left
      simpa using hcs
  have hsur : (cge (some c) 0xD800 && cle (some c) 0xDC00) = false := by
    simp only [cge, cle, Bool.and_eq_false_iff, decide_eq_false_iff_not]
    left
    omega
  simp only [regexFlagsLoop, hc]
  rw [if_pos hlt]
  simp only [hid, Bool.not_true, Bool.false_eq_true, if_false]
  rw [hg, hi, hm, hu, hy, hs6]
  simp only [Bool.false_eq_true, if_false]
  rw [hsur]
  simp only [Bool.false_eq_true, if_false]
  simp [hid, throwAt]

theorem regexFlagsLoop_run (fs : List Nat) :
    ∀ (fuel index mask : Nat) (s : ParserState) (rest : List Nat) (m : Nat),
      s.source.drop index = fs ++ rest →
      flagMask s.flags.optionsNext fs mask = some m →
      (index + fs.length < s.source.length →
        isIdPartO (charCodeAt s.source (index + fs.length)) = false) →
      fs.length < fuel →
      regexFlagsLoop fuel index mask s =
        Except.ok (index + fs.length, m,
          { s with column := s.column + (fs.length : Int) }) := by
  induction fs with
  | nil =>
    intro fuel index mask s rest m hdrop hm hstop hfuel
    obtain ⟨k, rfl⟩ : ∃ k, fuel = k + 1 := ⟨fuel - 1, by omega⟩
    have hm2 : some mask = some m := by simpa [flagMask] using hm
    obtain rfl : mask = m := Option.some.inj hm2
    simp only [regexFlagsLoop]
    by_cases hlt : index < s.source.length
    · rw [if_pos hlt]
      have hstop2 : isIdPartO (charCodeAt s.source index) = false :=
        hstop (by simpa using hlt)
      simp only [hstop2, Bool.not_false, if_true]
      simp only [List.length_nil, Nat.add_zero, Except.ok.injEq, Prod.mk.injEq]
      refine ⟨trivial, trivial, ?_⟩
      ext <;> simp
    · rw [if_neg hlt]
      simp only [List.length_nil, Nat.add_zero, Except.ok.injEq, Prod.mk.injEq]
      refine ⟨trivial, trivial, ?_⟩
      ext <;> simp
  | cons c fs ih =>
    intro fuel index mask s rest m hdrop hm hstop hfuel
    obtain ⟨k, rfl⟩ : ∃ k, fuel = k + 1 := ⟨fuel - 1, by omega⟩
    have hcharc : charCodeAt s.source index = some c := charCodeAt_of_drop hdrop
    have hlt : index < s.source.length := lt_length_of_charCodeAt hcharc
    rcases hb : flagBit s.flags.optionsNext c with _ | b
    · simp [flagMask, hb] at hm
    · simp only [flagMask, hb] at hm
      by_cases hdup : mask &&& b ≠ 0
      · simp [hdup] at hm
      · have hdup0 : mask &&& b = 0 := not_not.mp hdup
        rw [if_neg hdup] at hm
        rw [regexFlagsLoop_step k index mask s c b hcharc hlt hb hdup0]
        have hdrop2 : s.source.drop (index + 1) = fs ++ rest := by
          have h2 := @drop_append_of_drop _ _ [c] (fs ++ rest)
            (by simpa using hdrop)
          simpa using h2
        have e : index + (c :: fs).length = index + 1 + fs.length := by
          simp only [List.length_cons]
          omega
        have hstop2 : index + 1 + fs.length < s.source.length →
            isIdPartO (charCodeAt s.source (index + 1 + fs.length)) = false := by
          intro hl
          have h2 := hstop (by rw [e]; exact hl)
          rw [e] at h2
          exact h2
        have hf2 : fs.length < k := by
          simp only [List.length_cons] at hfuel
          omega
        rw [ih k (index + 1) (mask ||| b) { s with column := s.column + 1 }
          rest m hdrop2 hm hstop2 hf2]
        simp only [Except.ok.injEq, Prod.mk.injEq]
        refine ⟨by simp only [List.length_cons]; omega, trivial, ?_⟩
        ext <;> simp
        omega

/-- C3: in the flag loop of scanRegularExpression each known flag may
appear at most once: a flag whose bit is already in the mask reports a
fatal DuplicateRegExpFlag carrying that flag character; any other
identifier-part character reports a fatal UnexpectedTokenRegExpFlag; a
run of distinct known flags (as certified by the specification-side
flagMask) succeeds, returning the accumulated mask and stopping at the
first non-identifier character; and scanning /./gig; fails with a
duplicate-flag error for g. -/
theorem c3_regexp_flags :
    (∀ (fuel index mask : Nat) (s : ParserState) (c b : Nat),
      charCodeAt s.source index = some c → index < s.source.length →
      flagBit s.flags.optionsNext c = some b → mask &&& b ≠ 0 →
      regexFlagsLoop (fuel + 1) index mask s =
        Except.error (ScanFail.thrown
          ⟨Errors.DuplicateRegExpFlag, s.index, s.line, s.column, [[c]]⟩)) ∧
    (∀ (fuel index mask : Nat) (s : ParserState) (c : Nat),
      charCodeAt s.source index = some c → index < s.source.length →
      isIdPartO (some c) = true → flagBit s.flags.optionsNext c = none →
      c < 0xD800 →
      regexFlagsLoop (fuel + 1) index mask s =
        Except.error (ScanFail.thrown
          ⟨Errors.UnexpectedTokenRegExpFlag, s.index, s.line, s.column, []⟩)) ∧
    (∀ (fs : List Nat) (fuel index mask : Nat) (s : ParserState)
        (rest : List Nat) (m : Nat),
      s.source.drop index = fs ++ rest →
      flagMask s.flags.optionsNext fs mask = some m →
      (index + fs.length < s.source.length →
        isIdPartO (charCodeAt s.source (index + fs.length)) = false) →
      fs.length < fuel →
      regexFlagsLoop fuel index mask s =
        Except.ok (index + fs.length, m,
          { s with column := s.column + (fs.length : Int) })) ∧
    scanRegularExpression
        { initialState (unitsOf "/./gig;") Flags.none' with
          index := 1, column := 1 } =
      Except.error (ScanFail.thrown
        ⟨Errors.DuplicateRegExpFlag, 1, 1, 5, [[Chars.LowerG]]⟩) :=
  ⟨fun fuel index mask s c b hc hlt hbit hdup =>
      regexFlagsLoop_dup fuel index mask s c b hc hlt hbit hdup,
   fun fuel index mask s c hc hlt hid hbit hlow =>
      regexFlagsLoop_unknown fuel index mask s c hc hlt hid hbit hlow,
   fun fs fuel index mask s rest m hdrop hm hstop hfuel =>
      regexFlagsLoop_run fs fuel index mask s rest m hdrop hm hstop hfuel,
   rfl⟩

/-- Witness for C3: a duplicate g with the Global bit already in the mask,
the unknown identifier-part flag z, and the clean run gim accumulating the
mask 7 and stopping at the semicolon. -/
theorem c3_witness :
    regexFlagsLoop 3 0 1 (initialState (unitsOf "g") Flags.none') =
      Except.error (ScanFail.thrown
        ⟨Errors.DuplicateRegExpFlag, 0, 1, 0, [[103]]⟩) ∧
    regexFlagsLoop 3 0 0 (initialState (unitsOf "z") Flags.none') =
      Except.error (ScanFail.thrown
        ⟨Errors.UnexpectedTokenRegExpFlag, 0, 1, 0, []⟩) ∧
    regexFlagsLoop 4 0 0 (initialState (unitsOf "gim;") Flags.none') =
      Except.ok (3, 7,
        { initialState (unitsOf "gim;") Flags.none' with column := (3 : Int) }) :=
  ⟨c3_regexp_flags.1 2 0 1 (initialState (unitsOf "g") Flags.none')
      103 1 rfl (by decide) rfl (by decide),
   c3_regexp_flags.2.1 2 0 0 (initialState (unitsOf "z") Flags.none')
      122 rfl (by decide) (by decide) rfl (by decide),
   c3_regexp_flags.2.2.1 [103, 105, 109] 4 0 0
      (initialState (unitsOf "gim;") Flags.none') [59] 7
      (by decide) rfl (by decide) (by decide)⟩

end Cherow
